import Mathlib

/-!
# nfs-provisioner: export management and provisioning

A shallow embedding of `volume/provision.go` (the NFS provisioner: export
identifier allocation, export configuration updates with rollback, directory
creation, server address lookup, supplemental group generation) together with
the classification rules of the controller, and theorems about them.

Conventions of the embedding.

* Go strings and byte slices are lists of characters (`Str`).
* Go `int` and `int64` are `Int`; arithmetic that can overflow goes through
  `wrapInt` (two's complement, 64 bits, the width of `int` on the 64-bit
  platforms the provisioner image is built for).
* A Go function returning `(values, error)` returns `Except Err values`; every
  error return of the source carries zero values, so nothing is lost.
* The file system, the process environment, the cluster client and the outcome
  of external commands are explicit: `World` is the mutable file system, `Env`
  holds what the outside world answers during one call.
* The mutex only serialises calls; the embedding is sequential.
-/

namespace NfsProvisioner

/-! ## Strings -/

/-- Go `string` / `[]byte`. -/
abbrev Str := List Char

/-- The 64-bit two's complement value of an integer: Go's wrap-around on `int` overflow. -/
def wrapInt (x : Int) : Int := (x + 2 ^ 63) % 2 ^ 64 - 2 ^ 63

/-- Largest value of Go `int` (64 bits). -/
def maxInt : Int := 2 ^ 63 - 1

/-- Smallest value of Go `int` (64 bits). -/
def minInt : Int := -(2 ^ 63)

/-- The character class `[0-9]`. -/
def isDigit (c : Char) : Bool := decide ('0' ≤ c) && decide (c ≤ '9')

/-- The decimal digit character of `d < 10`. -/
def digitChar (d : Nat) : Char := Char.ofNat (48 + d)

/-- The value of a decimal digit character. -/
def digitVal (c : Char) : Nat := c.toNat - 48

/-- Decimal digits of `n`, most significant first, pushed in front of `acc`. -/
def natDigitsAux : Nat → Nat → Str → Str
  | 0, _, acc => acc
  | fuel + 1, n, acc =>
    if n < 10 then digitChar n :: acc
    else natDigitsAux fuel (n / 10) (digitChar (n % 10) :: acc)

/-- Decimal representation of a natural number (no sign, no leading zero). -/
def natDigits (n : Nat) : Str := natDigitsAux (n + 1) n []

/-- Go `strconv.Itoa` / `strconv.FormatInt(_, 10)`. -/
def Itoa (i : Int) : Str :=
  if i < 0 then '-' :: natDigits i.natAbs else natDigits i.natAbs

/-- Value of a string of decimal digits read left to right, starting from `acc`. -/
def digitsValue (acc : Nat) : Str → Nat
  | [] => acc
  | c :: cs => digitsValue (10 * acc + digitVal c) cs

/-- Go `strconv.Atoi` on a 64-bit platform: the value and whether the error is nil.
A syntax error gives `0`; a value out of range gives the nearest bound of `int`. -/
def Atoi (s : Str) : Int × Bool :=
  let neg : Bool := decide (s.head? = some '-')
  let body : Str := if s.head? = some '+' ∨ s.head? = some '-' then s.tail else s
  if body = [] ∨ body.all isDigit = false then (0, false)
  else
    let n := digitsValue 0 body
    if neg then
      if 2 ^ 63 < n then (minInt, false) else (-(n : Int), true)
    else
      if 2 ^ 63 ≤ n then (maxInt, false) else ((n : Int), true)

/-! ## The two regular expressions of `ganeshaExport` -/

/-- The literal part of the regular expression `Export_Id = [0-9]+;`. -/
def exportIdLiteral : Str := "Export_Id = ".toList

/-- Remove the literal `lit` from the front of `s`, if `s` starts with it. -/
def dropLiteral : Str → Str → Option Str
  | [], s => some s
  | _ :: _, [] => none
  | l :: ls, c :: cs => if l = c then dropLiteral ls cs else none

/-- A match of `Export_Id = [0-9]+;` starting at the first character of `s`:
the matched text. The digit run is greedy and must be followed by `;`. -/
def matchExportIdAt (s : Str) : Option Str :=
  match dropLiteral exportIdLiteral s with
  | none => none
  | some r =>
    match r.takeWhile isDigit, r.dropWhile isDigit with
    | [], _ => none
    | d :: ds, ';' :: _ => some (exportIdLiteral ++ (d :: ds) ++ [';'])
    | _ :: _, _ => none

/-- Go `regexp.MustCompile("Export_Id = [0-9]+;").FindAll(s, -1)`: the successive
leftmost non-overlapping matches. `skip` counts the characters still covered by
the previous match. -/
def findAllExportId : Nat → Str → List Str
  | _, [] => []
  | skip + 1, _ :: cs => findAllExportId skip cs
  | 0, c :: cs =>
    match matchExportIdAt (c :: cs) with
    | some m => m :: findAllExportId (m.length - 1) cs
    | none => findAllExportId 0 cs

/-- Go `regexp.MustCompile("[0-9]+").Find(line)`: the leftmost maximal run of digits
(empty when there is none). -/
def findDigits (line : Str) : Str :=
  (line.dropWhile (fun c => !isDigit c)).takeWhile isDigit

/-- The loop of `ganeshaExport` over the matches: keep the largest parsed id
above the current `nextExportId`. -/
def scanMaxExportId (read : Str) (nextExportId : Int) : Int :=
  (findAllExportId 0 read).foldl
    (fun next line =>
      let id := (Atoi (findDigits line)).1
      if id > next then id else next)
    nextExportId

/-- Go `strings.Replace(s, old, new, -1)` for a non-empty `old`: every leftmost
non-overlapping occurrence of `old` is replaced. `skip` counts the characters
still covered by the occurrence just replaced. -/
def replaceAux (old new : Str) : Nat → Str → Str
  | _, [] => []
  | skip + 1, _ :: cs => replaceAux old new skip cs
  | 0, c :: cs =>
    if old.isPrefixOf (c :: cs) then new ++ replaceAux old new (old.length - 1) cs
    else c :: replaceAux old new 0 cs

/-- Go `strings.Replace(s, old, new, -1)`. An empty `old` matches before every
character and at the end. -/
def Replace (s old new : Str) : Str :=
  if old = [] then new ++ s.flatMap (fun c => c :: new)
  else replaceAux old new 0 s

/-- Go `fmt.Sprintf(format, arg)` with one string operand `arg` (`some` while it
is not yet consumed). Plain text, `%%`, `%s`, `%v`, a verb that package fmt
rejects for a string, a `%` at the end, and a missing or left-over operand are
rendered as package fmt does. A directive with a flag, a width, a precision, an
argument index or one of the verbs `x X q T` is not modelled: the rest of the
output is then `other rest arg`, a parameter. -/
def sprintfAux (other : Str → Option Str → Str) : Str → Option Str → Str
  | [], none => []
  | [], some a => "%!(EXTRA string=".toList ++ a ++ ")".toList
  | ['%'], none => "%!(NOVERB)".toList
  | ['%'], some a => "%!(NOVERB)".toList ++ ("%!(EXTRA string=".toList ++ a ++ ")".toList)
  | '%' :: c :: rest, arg =>
    if c = '%' then '%' :: sprintfAux other rest arg
    else if c ∈ "+-# 0123456789.*[xXqT".toList then other (c :: rest) arg
    else if c = 's' ∨ c = 'v' then
      (match arg with
        | some a => a
        | none => "%!".toList ++ [c] ++ "(MISSING)".toList) ++ sprintfAux other rest none
    else
      (match arg with
        | some a => "%!".toList ++ [c] ++ "(string=".toList ++ a ++ ")".toList
        | none => "%!".toList ++ [c] ++ "(MISSING)".toList) ++ sprintfAux other rest none
  | c :: rest, arg => c :: sprintfAux other rest arg

/-- Go `fmt.Sprintf(format, arg)` for one string operand. -/
def Sprintf (other : Str → Option Str → Str) (format arg : Str) : Str :=
  sprintfAux other format (some arg)

/-! ## Data model -/

/-- The constant `annCreatedBy`. -/
def annCreatedBy : Str := "kubernetes.io/createdby".toList
/-- The constant `createdBy`. -/
def createdBy : Str := "nfs-dynamic-provisioner".toList
/-- The constant `annBlock`. -/
def annBlock : Str := "EXPORT_block".toList
/-- The constant `annExportId`. -/
def annExportId : Str := "Export_Id".toList
/-- The constant `annLine`. -/
def annLine : Str := "etcexports_line".toList
/-- The constant `VolumeGidAnnotationKey`. -/
def VolumeGidAnnotationKey : Str := "pv.beta.kubernetes.io/gid".toList
/-- The path of the kernel server's exports file, a literal in `kernelExport`. -/
def etcExports : Str := "/etc/exports".toList
/-- The constant `v1.ClusterIPNone`. -/
def ClusterIPNone : Str := "None".toList
/-- The constant `v1.ProtocolTCP`. -/
def ProtocolTCP : Str := "TCP".toList
/-- The constant `v1.ProtocolUDP`. -/
def ProtocolUDP : Str := "UDP".toList

/-- The type `v1beta1.IDRange`: a range of group ids, both ends `int64`. -/
structure IDRange where
  Min : Int
  Max : Int
  deriving DecidableEq, Repr

/-- The struct `nfsProvisioner` (the client and the mutex are outside the state:
the client's answers are in `Env`, calls are sequential). -/
structure nfsProvisioner where
  exportDir : Str
  useGanesha : Bool
  ganeshaConfig : Str
  nextExportId : Int
  ranges : List IDRange
  deriving DecidableEq, Repr

/-- The errors returned by the functions of `provision.go`, one per `return` site;
`serverIP` and `supplementalGroup` wrap the error of the callee. `randPanic` is
not a returned error: `rand.Int` panics on a bound that is not positive. The
last two are the errors of `getSupplementalGroupsAnnotation` in `scc.go`. -/
inductive Err
  | invalidParameter
  | selectorNotSupported
  | serverIP (cause : Err)
  | pathExists
  | mkdirFailed
  | chmodFailed
  | supplementalGroup (cause : Err)
  | chgrpFailed
  | hostnameFailed
  | namespaceMissing
  | serviceGet
  | serviceInvalid
  | noClusterIP
  | emptyRanges
  | randRead
  | randPanic
  | readConfig
  | addBlock
  | dbusConn
  | dbusCall
  | addLine
  | exportfsFailed
  | readAnnotations
  | noGroupsFound
  | emptyGroups
  deriving DecidableEq, Repr

/-- How a write to a file ends: it succeeds, the file cannot be opened, or the
write fails after `k` bytes. -/
inductive WriteOutcome
  | ok
  | openErr
  | writeErr (k : Nat)
  deriving DecidableEq, Repr

/-- The type `v1.EndpointAddress` (the field used). -/
structure EndpointAddress where
  IP : Str
  deriving DecidableEq, Repr

/-- The type `v1.EndpointPort` (the fields used); `Port` is an `int32`. -/
structure EndpointPort where
  Port : Int
  Protocol : Str
  deriving DecidableEq, Repr

/-- The type `v1.EndpointSubset` (the fields used). -/
structure EndpointSubset where
  Addresses : List EndpointAddress
  Ports : List EndpointPort
  deriving DecidableEq, Repr

/-- The type `v1.Service` (the field used: `Spec.ClusterIP`). -/
structure Service where
  ClusterIP : Str
  deriving DecidableEq, Repr

/-- What the outside world answers during one call: the process environment,
the cluster client, the external commands, the random source and the outcome of
file writes. -/
structure Env where
  /-- Environment variable `MY_POD_IP` (empty when unset). -/
  MY_POD_IP : Str
  /-- Environment variable `MY_SERVICE_NAME` (empty when unset). -/
  MY_SERVICE_NAME : Str
  /-- Environment variable `MY_POD_NAMESPACE` (empty when unset). -/
  MY_POD_NAMESPACE : Str
  /-- Output of `hostname -i` as the command prints it, its final newline
  included; `none` when the command fails. -/
  hostname : Option Str
  /-- Answer of `client.Core().Services(namespace).Get(name)`, `none` on error. -/
  services : Str → Str → Option Service
  /-- Subsets of the object returned by `client.Core().Endpoints(namespace).Get(name)`;
  its error is ignored by the source, a failed lookup gives an object without subsets. -/
  endpoints : Str → Str → List EndpointSubset
  /-- Rendering by package fmt of the directives `Sprintf` does not model. -/
  fmtOther : Str → Option Str → Str
  /-- Whether `os.MkdirAll` succeeds. -/
  mkdirAll : Bool
  /-- Whether the command `chmod 071 path` succeeds. -/
  chmod : Bool
  /-- Whether the command `chgrp gid path` succeeds. -/
  chgrp : Bool
  /-- What the first call of `rand.Int` reads from the random source when it
  reads, `none` when reading fails. -/
  draw1 : Option Nat
  /-- What the second call of `rand.Int` reads from the random source when it
  reads, `none` when reading fails. -/
  draw2 : Option Nat
  /-- Outcome of the append in `addToFile`. -/
  append : WriteOutcome
  /-- Whether `dbus.SystemBus()` succeeds. -/
  dbusConn : Bool
  /-- Whether the call of `AddExport` on the bus succeeds. -/
  addExport : Bool
  /-- Whether the command `exportfs -r` succeeds. -/
  exportfs : Bool
  /-- Outcome of `ioutil.WriteFile` in `removeFromFile`. -/
  rewrite : WriteOutcome

/-- The file system: the content of each readable regular file and the set of
directories. A directory is recorded under its clean path (`cleanPath`);
`World.stat`, `World.mkdirAll` and `World.removeAll` clean the path they are
given, so that two spellings of one path name the same entry. -/
structure World where
  files : Str → Option Str
  dirs : Str → Bool

/-- The pieces of a path between its slashes. -/
def splitSlash : Str → List Str
  | [] => [[]]
  | c :: cs =>
    if c = '/' then [] :: splitSlash cs
    else
      match splitSlash cs with
      | [] => [[c]]
      | s :: ss => (c :: s) :: ss

/-- Resolution of the `..` elements of a path: each one removes the element
before it; at the root it is dropped, at the start of a relative path it stays.
`acc` holds the elements kept so far, last first. -/
def resolveDotDot (rooted : Bool) : List Str → List Str → List Str
  | acc, [] => acc.reverse
  | acc, s :: rest =>
    if s = ['.', '.'] then
      match acc with
      | [] => if rooted then resolveDotDot rooted [] rest else resolveDotDot rooted [s] rest
      | a :: as =>
        if a = ['.', '.'] then resolveDotDot rooted (s :: a :: as) rest
        else resolveDotDot rooted as rest
    else resolveDotDot rooted (s :: acc) rest

/-- Go `filepath.Clean`: the shortest spelling of a path, with repeated and
trailing slashes and the elements `.` and `..` resolved; the file a path names
when no symbolic link is involved. -/
def cleanPath (path : Str) : Str :=
  let rooted : Bool := decide (path.head? = some '/')
  let elements := resolveDotDot rooted []
    ((splitSlash path).filter (fun s => decide (s ≠ []) && decide (s ≠ ['.'])))
  if rooted then '/' :: List.intercalate ['/'] elements
  else if elements = [] then ['.']
  else List.intercalate ['/'] elements

/-- The world with the content of one file replaced. -/
def World.write (w : World) (path content : Str) : World :=
  { w with files := fun q => if q = path then some content else w.files q }

/-- The proper ancestors of a path: its prefixes that end right before a `/`
(the root `/` itself left out). -/
def ancestors (path : Str) : List Str :=
  (List.range path.length).filterMap
    (fun i => if 0 < i ∧ path.get? i = some '/' then some (path.take i) else none)

/-- Successful `os.MkdirAll(path)`: the directory and its missing parents exist. -/
def World.mkdirAll (w : World) (path : Str) : World :=
  { w with
    dirs := fun q =>
      decide (q = cleanPath path) || decide (q ∈ ancestors (cleanPath path)) || w.dirs q }

/-- The text every path below a directory starts with: the directory and a
slash (the root is its own slash). -/
def belowMark (dir : Str) : Str :=
  if dir = ['/'] then dir else dir ++ ['/']

/-- Go `os.RemoveAll(path)`: the path and everything below it is gone. -/
def World.removeAll (w : World) (path : Str) : World :=
  { files := fun q =>
      if q = cleanPath path ∨ (belowMark (cleanPath path)).isPrefixOf q = true then none
      else w.files q
    dirs := fun q =>
      if q = cleanPath path ∨ (belowMark (cleanPath path)).isPrefixOf q = true then false
      else w.dirs q }

/-- Whether `os.Stat(path)` returns no error: the path, which is not empty, is a
file or a directory. -/
def World.stat (w : World) (path : Str) : Bool :=
  if path = [] then false
  else (w.files (cleanPath path)).isSome || w.dirs (cleanPath path)

/-- The result of a call together with the state it leaves. -/
structure Outcome (α : Type) where
  result : Except Err α
  p : nfsProvisioner
  w : World

/-! ## Operations of `provision.go` -/

/-- The method `addToFile`: append `toAdd` to an existing file (`O_APPEND|O_WRONLY`,
no creation). Returns whether the error is nil, and the world left. -/
def addToFile (w : World) (o : WriteOutcome) (path toAdd : Str) : Bool × World :=
  match w.files path with
  | none => (false, w)
  | some old =>
    match o with
    | .ok => (true, w.write path (old ++ toAdd))
    | .openErr => (false, w)
    | .writeErr k => (false, w.write path (old ++ toAdd.take k))

/-- The method `removeFromFile`: read the file, delete every occurrence of
`toRemove`, write the result back. Returns whether the error is nil, and the
world left. -/
def removeFromFile (w : World) (o : WriteOutcome) (path toRemove : Str) : Bool × World :=
  match w.files path with
  | none => (false, w)
  | some read =>
    let removed := Replace read toRemove []
    match o with
    | .ok => (true, w.write path removed)
    | .openErr => (false, w)
    | .writeErr k => (false, w.write path (removed.take k))

/-- The export block `ganeshaExport` builds for a path and an export id. -/
def ganeshaBlock (path : Str) (exportId : Int) : Str :=
  "\nEXPORT\n\x7b\n".toList ++
  "\tExport_Id = ".toList ++ Itoa exportId ++ ";\n".toList ++
  "\tPath = ".toList ++ path ++ ";\n".toList ++
  "\tPseudo = ".toList ++ path ++ ";\n".toList ++
  "\tAccess_Type = RW;\n".toList ++
  "\tSquash = Root_squash;\n".toList ++
  "\tSecType = sys;\n".toList ++
  "\tFSAL \x7b\n\t\tName = VFS;\n\t\x7d\n\x7d\n".toList

/-- The text of a block after the digits of its `Export_Id` line. -/
def blockTail (path : Str) : Str :=
  "\n".toList ++
  "\tPath = ".toList ++ path ++ ";\n".toList ++
  "\tPseudo = ".toList ++ path ++ ";\n".toList ++
  "\tAccess_Type = RW;\n".toList ++
  "\tSquash = Root_squash;\n".toList ++
  "\tSecType = sys;\n".toList ++
  "\tFSAL \x7b\n\t\tName = VFS;\n\t\x7d\n\x7d\n".toList

/-- The critical section of `ganeshaExport` once the configuration is read: on the
first add take the largest id found in the file, then increment. The result is
both the new `nextExportId` and the export id claimed. -/
def claimExportId (nextExportId : Int) (read : Str) : Int :=
  wrapInt ((if nextExportId = 0 then scanMaxExportId read nextExportId else nextExportId) + 1)

/-- The method `ganeshaExport`: returns the block added and its export id. -/
def ganeshaExport (p : nfsProvisioner) (w : World) (e : Env) (path : Str) :
    Outcome (Str × Int) :=
  match w.files p.ganeshaConfig with
  | none => ⟨.error .readConfig, p, w⟩
  | some read =>
    let exportId := claimExportId p.nextExportId read
    let p1 := { p with nextExportId := exportId }
    let block := ganeshaBlock path exportId
    match addToFile w e.append p1.ganeshaConfig block with
    | (false, w1) => ⟨.error .addBlock, p1, w1⟩
    | (true, w1) =>
      if e.dbusConn = false then
        ⟨.error .dbusConn, p1, (removeFromFile w1 e.rewrite p1.ganeshaConfig block).2⟩
      else if e.addExport = false then
        ⟨.error .dbusCall, p1, (removeFromFile w1 e.rewrite p1.ganeshaConfig block).2⟩
      else ⟨.ok (block, exportId), p1, w1⟩

/-- The export id a call of `ganeshaExport` claimed (the value it assigned to
`exportId`), `none` when the call returned before, on a failed read. -/
def claimedExportId (r : Outcome (Str × Int)) : Option Int :=
  match r.result with
  | .error .readConfig => none
  | _ => some r.p.nextExportId

/-- The line `kernelExport` builds for a path. -/
def exportsLine (path : Str) : Str :=
  "\n".toList ++ path ++ " *(rw,insecure,root_squash)\n".toList

/-- The method `kernelExport`: returns the line added to `/etc/exports`. -/
def kernelExport (p : nfsProvisioner) (w : World) (e : Env) (path : Str) : Outcome Str :=
  let line := exportsLine path
  match addToFile w e.append etcExports line with
  | (false, w1) => ⟨.error .addLine, p, w1⟩
  | (true, w1) =>
    if e.exportfs = false then
      ⟨.error .exportfsFailed, p, (removeFromFile w1 e.rewrite etcExports line).2⟩
    else ⟨.ok line, p, w1⟩

/-- Go `rand.Int(rand.Reader, max)`: a value in `[0, max)`. It panics when `max`
is not positive; for `max = 1` the only value is 0 and the random source is not
read; otherwise it fails when the random source cannot be read. -/
def randInt (draw : Option Nat) (max : Int) : Except Err Int :=
  if max ≤ 0 then .error .randPanic
  else if max = 1 then .ok 0
  else
    match draw with
    | none => .error .randRead
    | some r => .ok ((r : Int) % max)

/-- The method `generateSupplementalGroup`. The drawn value is overwritten by the
constant 777 before it is returned, as in the source. -/
def generateSupplementalGroup (p : nfsProvisioner) (e : Env) : Except Err Int :=
  match p.ranges with
  | [] => .error .emptyRanges
  | r0 :: _ =>
    match randInt e.draw1 (p.ranges.length : Int) with
    | .error err => .error err
    | .ok i =>
      let rng := (p.ranges.get? i.toNat).getD r0
      match randInt e.draw2 (wrapInt (rng.Max - rng.Min + 1)) with
      | .error err => .error err
      | .ok _ => .ok 777

/-- The fallback server of `getServer`: `MY_POD_IP`, or the output of `hostname -i`
when that is unset; `none` when the command fails. -/
def fallbackServer (e : Env) : Option Str :=
  if e.MY_POD_IP = [] then e.hostname else some e.MY_POD_IP

/-- The map `expectedPorts` of `getServer`, as the list of its keys. -/
def expectedPorts : List (Int × Str) :=
  [(2049, ProtocolTCP), (20048, ProtocolTCP), (111, ProtocolUDP), (111, ProtocolTCP)]

/-- The map `actualPorts` built from the ports of a subset, as the list of its keys. -/
def actualPorts (subset : EndpointSubset) : List (Int × Str) :=
  subset.Ports.map (fun port => (port.Port, port.Protocol))

/-- Go `reflect.DeepEqual` on two maps whose values are all `true`: the same keys. -/
def sameKeys (a b : List (Int × Str)) : Bool :=
  a.all (fun k => decide (k ∈ b)) && b.all (fun k => decide (k ∈ a))

/-- The validation loop of `getServer` over the endpoint subsets: the value of
`valid` after the loop. -/
def validSubset (fallback : Str) : List EndpointSubset → Bool
  | [] => false
  | subset :: rest =>
    match subset.Addresses with
    | [address] =>
      if address.IP ≠ fallback then validSubset fallback rest
      else if sameKeys expectedPorts (actualPorts subset) = false then validSubset fallback rest
      else true
    | _ => validSubset fallback rest

/-- The method `getServer`: the server IP to put in a provisioned volume. -/
def getServer (e : Env) : Except Err Str :=
  match fallbackServer e with
  | none => .error .hostnameFailed
  | some fallback =>
    if e.MY_SERVICE_NAME = [] then .ok fallback
    else if e.MY_POD_NAMESPACE = [] then .error .namespaceMissing
    else
      match e.services e.MY_POD_NAMESPACE e.MY_SERVICE_NAME with
      | none => .error .serviceGet
      | some service =>
        if validSubset fallback (e.endpoints e.MY_POD_NAMESPACE e.MY_SERVICE_NAME) = false then
          .error .serviceInvalid
        else if service.ClusterIP = ClusterIPNone then .error .noClusterIP
        else .ok service.ClusterIP

/-- The type `unversioned.LabelSelector`. -/
structure LabelSelector where
  MatchLabels : List (Str × Str)
  MatchExpressions : List (Str × Str × List Str)
  deriving DecidableEq, Repr

/-- The values of `v1.PersistentVolumeReclaimPolicy`. -/
inductive ReclaimPolicy
  | Delete
  | Retain
  | Recycle
  deriving DecidableEq, Repr

/-- The type `VolumeOptions`. A Go map is `none` when nil, otherwise the list of
its entries; a pointer is `none` when nil. -/
structure VolumeOptions where
  PersistentVolumeReclaimPolicy : ReclaimPolicy
  PVName : Str
  Capacity : Str
  AccessModes : List Str
  Parameters : Option (List (Str × Str))
  Selector : Option LabelSelector
  deriving DecidableEq, Repr

/-- The type `v1.NFSVolumeSource`. -/
structure NFSVolumeSource where
  Server : Str
  Path : Str
  ReadOnly : Bool
  deriving DecidableEq, Repr

/-- The type `v1.PersistentVolume` (the fields `Provision` fills). Maps are
lists of entries with distinct keys. -/
structure PersistentVolume where
  Name : Str
  Labels : List (Str × Str)
  Annotations : List (Str × Str)
  PersistentVolumeReclaimPolicy : ReclaimPolicy
  AccessModes : List Str
  Capacity : Str
  NFS : NFSVolumeSource
  deriving DecidableEq, Repr

/-- Go map assignment `m[k] = v`. -/
def mapSet (m : List (Str × Str)) (k v : Str) : List (Str × Str) :=
  m.filter (fun kv => decide (kv.1 ≠ k)) ++ [(k, v)]

/-- Go map lookup `m[k]` with the `ok` flag. -/
def mapGet (m : List (Str × Str)) (k : Str) : Option Str :=
  (m.find? (fun kv => decide (kv.1 = k))).map Prod.snd

/-- The method `createVolume`: returns the server, the path, the gid, the block
or line added and the export id (0 for the kernel server). -/
def createVolume (p : nfsProvisioner) (w : World) (e : Env) (options : VolumeOptions) :
    Outcome (Str × Str × Int × Str × Int) :=
  if options.Parameters.isSome then ⟨.error .invalidParameter, p, w⟩
  else if options.Selector.isSome then ⟨.error .selectorNotSupported, p, w⟩
  else
    match getServer e with
    | .error err => ⟨.error (.serverIP err), p, w⟩
    | .ok server =>
      let path := Sprintf e.fmtOther (p.exportDir ++ "%s".toList) options.PVName
      if w.stat path then ⟨.error .pathExists, p, w⟩
      else if e.mkdirAll = false then ⟨.error .mkdirFailed, p, w⟩
      else
        let w1 := w.mkdirAll path
        if e.chmod = false then ⟨.error .chmodFailed, p, w1.removeAll path⟩
        else
          match generateSupplementalGroup p e with
          | .error err => ⟨.error (.supplementalGroup err), p, w1⟩
          | .ok gid =>
            if e.chgrp = false then ⟨.error .chgrpFailed, p, w1.removeAll path⟩
            else if p.useGanesha then
              match ganeshaExport p w1 e path with
              | ⟨.error err, p2, w2⟩ => ⟨.error err, p2, w2.removeAll path⟩
              | ⟨.ok (block, exportId), p2, w2⟩ =>
                ⟨.ok (server, path, gid, block, exportId), p2, w2⟩
            else
              match kernelExport p w1 e path with
              | ⟨.error err, p2, w2⟩ => ⟨.error err, p2, w2.removeAll path⟩
              | ⟨.ok line, p2, w2⟩ => ⟨.ok (server, path, gid, line, 0), p2, w2⟩

/-- The method `Provision`: creates the volume and returns the object describing it. -/
def Provision (p : nfsProvisioner) (w : World) (e : Env) (options : VolumeOptions) :
    Outcome PersistentVolume :=
  match createVolume p w e options with
  | ⟨.error err, p1, w1⟩ => ⟨.error err, p1, w1⟩
  | ⟨.ok (server, path, gid, added, exportId), p1, w1⟩ =>
    let annotations0 := mapSet [] annCreatedBy createdBy
    let annotations1 := mapSet annotations0 VolumeGidAnnotationKey (Itoa gid)
    let annotations :=
      if p.useGanesha then mapSet (mapSet annotations1 annBlock added) annExportId (Itoa exportId)
      else mapSet annotations1 annLine added
    ⟨.ok
      { Name := options.PVName
        Labels := []
        Annotations := annotations
        PersistentVolumeReclaimPolicy := options.PersistentVolumeReclaimPolicy
        AccessModes := options.AccessModes
        Capacity := options.Capacity
        NFS := { Server := server, Path := path, ReadOnly := false } },
      p1, w1⟩

/-- The export ids claimed by successive calls of `ganeshaExport` on one
provisioner, each call with the world, the environment and the path it meets. -/
def claimedIds (p : nfsProvisioner) : List (World × Env × Str) → List Int
  | [] => []
  | (w, e, path) :: rest =>
    let r := ganeshaExport p w e path
    match claimedExportId r with
    | some id => id :: claimedIds r.p rest
    | none => claimedIds r.p rest

/-! ## The specification's reading of the identifier scan -/

/-- The value `N` of a token `Export_Id = N;` that starts at the first character
of `s`: the literal, one or more decimal digits, a semicolon. -/
def tokenAt (s : Str) : Option Nat :=
  match dropLiteral exportIdLiteral s with
  | none => none
  | some r =>
    if r.takeWhile isDigit ≠ [] ∧ (r.dropWhile isDigit).head? = some ';' then
      some (digitsValue 0 (r.takeWhile isDigit))
    else none

/-- The largest `N` over all tokens `Export_Id = N;` of a content, wherever they
start; 0 when there is none. The value is the mathematical one, not bounded. -/
def largestExportId : Str → Nat
  | [] => 0
  | c :: cs => max ((tokenAt (c :: cs)).getD 0) (largestExportId cs)

/-- A natural number as a Go `int`, the way `Atoi` bounds it. -/
def clampInt (n : Nat) : Int := if 2 ^ 63 ≤ n then maxInt else (n : Int)

/-! ## The controller's classification rules

The controller's source is not part of the sources at hand, only its tests are;
the two predicates and the objects they read are modelled from the specification. -/

/-- Modelled from the spec: the cached storage class `{name, provisionerName,
parameters}` of the data model (the type is declared outside the sources at hand). -/
structure StorageClass where
  name : Str
  provisionerName : Str
  parameters : List (Str × Str)
  deriving DecidableEq, Repr

/-- Modelled from the spec: the phases of a claim (declared outside the sources at hand). -/
inductive ClaimPhase
  | Pending
  | Bound
  | Lost
  deriving DecidableEq, Repr

/-- Modelled from the spec: the claim of the data model, with the fields the
classification reads (the type is declared outside the sources at hand). -/
structure Claim where
  uid : Str
  name : Str
  classAnnotation : Str
  boundVolumeName : Str
  phase : ClaimPhase
  deriving DecidableEq, Repr

/-- Modelled from the spec: the phases of a volume (declared outside the sources at hand). -/
inductive VolumePhase
  | Pending
  | Available
  | Bound
  | Released
  | Failed
  deriving DecidableEq, Repr

/-- Modelled from the spec: the volume of the data model, with the fields the
classification reads (the type is declared outside the sources at hand). -/
structure Volume where
  name : Str
  annotations : List (Str × Str)
  reclaimPolicy : ReclaimPolicy
  phase : VolumePhase
  deriving DecidableEq, Repr

/-- Modelled from the spec: the key of the annotation `dynamically-provisioned-by`
(the constant `annDynamicallyProvisioned` is defined outside the sources at hand). -/
def annDynamicallyProvisioned : Str := "dynamically-provisioned-by".toList

/-- Modelled from the spec: the object cache's get by name. The cache maps a class
name to the latest class object; here it is the list of cached classes, the
first one of a name being the one the cache holds (the cache is defined outside
the sources at hand). -/
def getClass (classes : List StorageClass) (name : Str) : Option StorageClass :=
  classes.find? (fun cls => decide (cls.name = name))

/-- Modelled from the spec: `shouldProvision` of the controller, which is not in
the sources at hand. True iff the claim is not already bound, its class
annotation names a class present in the cache, and that class's provisioner is
this provisioner's configured name. -/
def shouldProvision (provisionerName : Str) (classes : List StorageClass) (claim : Claim) :
    Bool :=
  if claim.boundVolumeName ≠ [] then false
  else
    match getClass classes claim.classAnnotation with
    | none => false
    | some cls => decide (cls.provisionerName = provisionerName)

/-- Modelled from the spec: `shouldDelete` of the controller, which is not in the
sources at hand. True iff the volume's phase is Released, its reclaim policy is
Delete, and it carries the annotation `dynamically-provisioned-by` with this
provisioner's name. -/
def shouldDelete (provisionerName : Str) (volume : Volume) : Bool :=
  if volume.phase ≠ VolumePhase.Released then false
  else if volume.reclaimPolicy ≠ ReclaimPolicy.Delete then false
  else decide (mapGet volume.annotations annDynamicallyProvisioned = some provisionerName)

/-! ## Sample inputs -/

/-- A provisioner as `NewNFSProvisioner` returns it for the daemon variant: no
export id assigned yet, the default range of group ids. -/
def sampleProvisioner : nfsProvisioner :=
  { exportDir := "/export/".toList
    useGanesha := true
    ganeshaConfig := "/export/vfs.conf".toList
    nextExportId := 0
    ranges := [{ Min := 0, Max := 65533 }] }

/-- An environment in which every external step succeeds: the pod IP is set, no
service name is given. -/
def sampleEnv : Env :=
  { MY_POD_IP := "10.0.0.5".toList
    MY_SERVICE_NAME := []
    MY_POD_NAMESPACE := []
    hostname := none
    services := fun _ _ => none
    endpoints := fun _ _ => []
    fmtOther := fun _ _ => []
    mkdirAll := true
    chmod := true
    chgrp := true
    draw1 := some 0
    draw2 := some 5
    append := WriteOutcome.ok
    dbusConn := true
    addExport := true
    exportfs := true
    rewrite := WriteOutcome.ok }

/-- A file system that holds one file and no directory. -/
def sampleWorld (path content : Str) : World :=
  { files := fun q => if q = path then some content else none
    dirs := fun _ => false }

/-- A daemon configuration with the export ids 7 and 12. -/
def sampleConfig : Str := "EXPORT \x7b Export_Id = 7; \x7d\nEXPORT \x7b Export_Id = 12; \x7d\n".toList

/-- Four calls, the third of which cannot read the configuration and the second
of which fails on the bus: the ids claimed are 13, 14, 15. -/
def sampleCalls : List (World × Env × Str) :=
  [ (sampleWorld sampleProvisioner.ganeshaConfig sampleConfig, sampleEnv, "/export/pvc-1".toList),
    (sampleWorld sampleProvisioner.ganeshaConfig [], { sampleEnv with addExport := false },
      "/export/pvc-2".toList),
    (sampleWorld [] [], sampleEnv, "/export/pvc-3".toList),
    (sampleWorld sampleProvisioner.ganeshaConfig sampleConfig,
      { sampleEnv with append := WriteOutcome.openErr }, "/export/pvc-4".toList) ]

/-- Two calls that read a configuration holding the id `2^63 - 2`. -/
def overflowCalls : List (World × Env × Str) :=
  [ (sampleWorld sampleProvisioner.ganeshaConfig "Export_Id = 9223372036854775806;".toList,
      sampleEnv, "/export/pvc-1".toList),
    (sampleWorld sampleProvisioner.ganeshaConfig "Export_Id = 9223372036854775806;".toList,
      sampleEnv, "/export/pvc-2".toList) ]

/-- An environment in which the append succeeds and the control-channel call
that follows fails. -/
def busFailsEnv : Env := { sampleEnv with addExport := false }

/-- An environment in which the append succeeds and the refresh command that
follows fails. -/
def exportfsFailsEnv : Env := { sampleEnv with exportfs := false }

/-- Whether `t` occurs in `c ++ t` only as the appended suffix: no occurrence of
`t` starts inside `c`. -/
def occursOnlyAtEnd (c t : Str) : Bool :=
  (List.range c.length).all (fun i => !t.isPrefixOf ((c ++ t).drop i))

/-- An exports file with one line of another export. -/
def sampleExports : Str := "/srv/data *(ro)\n".toList

/-- An exports file that already holds the line `kernelExport` builds for
`/export/pvc-1`, left over from an earlier export of that path. -/
def staleExports : Str := exportsLine "/export/pvc-1".toList

/-- The options of a claim without parameters and without selector, for the
volume name `pvc-1`. -/
def sampleOptions : VolumeOptions :=
  { PersistentVolumeReclaimPolicy := ReclaimPolicy.Delete
    PVName := "pvc-1".toList
    Capacity := "1Mi".toList
    AccessModes := ["ReadWriteOnce".toList]
    Parameters := none
    Selector := none }

/-- The endpoint subset of a well-formed NFS service for the pod `10.0.0.5`. -/
def sampleSubset : EndpointSubset :=
  { Addresses := [{ IP := "10.0.0.5".toList }]
    Ports :=
      [ { Port := 111, Protocol := ProtocolUDP }, { Port := 2049, Protocol := ProtocolTCP },
        { Port := 111, Protocol := ProtocolTCP }, { Port := 20048, Protocol := ProtocolTCP } ] }

/-- An environment with the service name and the namespace set, in which the
service `nfs` of namespace `default` has the cluster IP `10.3.0.9` and the
endpoints `sampleSubset`. -/
def serviceEnv : Env :=
  { sampleEnv with
    MY_SERVICE_NAME := "nfs".toList
    MY_POD_NAMESPACE := "default".toList
    services := fun ns name =>
      if ns = "default".toList ∧ name = "nfs".toList then some { ClusterIP := "10.3.0.9".toList }
      else none
    endpoints := fun ns name =>
      if ns = "default".toList ∧ name = "nfs".toList then [sampleSubset] else [] }

/-- The environment `serviceEnv` for a pod without `MY_POD_IP`: the address comes
from `hostname -i`, which prints the pod's address `10.0.0.5` and a newline. -/
def hostnameEnv : Env :=
  { serviceEnv with MY_POD_IP := [], hostname := some "10.0.0.5\n".toList }

/-- The helper `newStorageClass` of `controller_test.go`. -/
def newStorageClass (name provisioner : Str) : StorageClass :=
  { name := name, provisionerName := provisioner, parameters := [] }

/-- The helper `newClaim` of `controller_test.go`: its third argument is the value
of the class annotation, its fourth the bound volume name. -/
def newClaim (name claimUID provisioner volumeName : Str) : Claim :=
  { uid := claimUID
    name := name
    classAnnotation := provisioner
    boundVolumeName := volumeName
    phase := ClaimPhase.Pending }

/-- The helper `newVolume` of `controller_test.go`. -/
def newVolume (name : Str) (phase : VolumePhase) (policy : ReclaimPolicy)
    (annotations : List (Str × Str)) : Volume :=
  { name := name, annotations := annotations, reclaimPolicy := policy, phase := phase }

/-! ## Pod annotations and namespace annotations -/

/-- The constant `downwardAnnotations`. -/
def downwardAnnotations : Str := "/podinfo/annotations".toList

/-- The constant `ValidatedPSPAnnotation`. -/
def ValidatedPSPAnnotation : Str := "kubernetes.io/psp".toList

/-- The constant `UIDRangeAnnotation` of `scc.go`. -/
def UIDRangeAnnotation : Str := "openshift.io/sa.scc.uid-range".toList

/-- The constant `SupplementalGroupsAnnotation` of `scc.go`. -/
def SupplementalGroupsAnnotation : Str := "openshift.io/sa.scc.supplemental-groups".toList

/-- The characters with a meaning of their own in the syntax of package regexp,
the dot left out. -/
def regexSpecial : Str := "\\+*?()|[]\x7b\x7d^$".toList

/-- A match of the key part of the pattern at the head of a text, for a key made
of plain characters and dots: a plain character matches itself, a dot matches
any character but a newline. Returns the text after the match. -/
def matchKey : Str → Str → Option Str
  | [], s => some s
  | _ :: _, [] => none
  | k :: ks, c :: cs =>
    if (k = '.' ∧ c ≠ '\n') ∨ (k ≠ '.' ∧ k = c) then matchKey ks cs else none

/-- Whether the pattern `^key=".*"$` matches in a text. Without the multi-line
flag `^` and `$` stand for the two ends of the text and `.` does not match a
newline, so the match, when there is one, is the whole text: the key, `="`, any
characters but newlines, and a closing quote as the last character. -/
def matchesWholeText (key text : Str) : Bool :=
  match matchKey key text with
  | none => false
  | some r =>
    match dropLiteral "=\"".toList r with
    | none => false
    | some x => decide (x.getLast? = some '"') && decide ('\n' ∉ x)

/-- The function `getPodAnnotation`: `regexp.MustCompile("^" + key + "=\".*\"$")`
is applied to the content of the downward API file and the matched text is
returned, the empty string when nothing matches. A key with a character of
`regexSpecial` makes a pattern that is not modelled: the result is then
`other key read`, a parameter. -/
def getPodAnnotation (w : World) (other : Str → Str → Except Err Str) (key : Str) :
    Except Err Str :=
  match w.files downwardAnnotations with
  | none => .error .readAnnotations
  | some read =>
    if key.any (fun c => decide (c ∈ regexSpecial)) then other key read
    else if matchesWholeText key read then .ok read
    else .ok []

/-- The type `v1.Namespace` (the fields used). A nil map of annotations is the
empty list. -/
structure Namespace where
  Name : Str
  Annotations : List (Str × Str)
  deriving DecidableEq, Repr

/-- The function `getSupplementalGroupsAnnotation` of `scc.go`. -/
def getSupplementalGroupsAnnotation (ns : Namespace) : Except Err Str :=
  match mapGet ns.Annotations SupplementalGroupsAnnotation with
  | some groups => if groups.length = 0 then .error .emptyGroups else .ok groups
  | none =>
    match mapGet ns.Annotations UIDRangeAnnotation with
    | none => .error .noGroupsFound
    | some groups => if groups.length = 0 then .error .emptyGroups else .ok groups

/-- A downward API file with the single annotation `kubernetes.io/psp`. -/
def samplePodInfo : Str := "kubernetes.io/psp=\"restricted\"".toList

/-- A downward API file with two annotations, one per line. -/
def samplePodInfoTwo : Str :=
  "kubernetes.io/config.source=\"api\"\nkubernetes.io/psp=\"restricted\"".toList

/-- A provisioner for the kernel server. -/
def kernelProvisioner : nfsProvisioner := { sampleProvisioner with useGanesha := false }

/-- A provisioner whose export directory has a percent sign in its name. -/
def percentProvisioner : nfsProvisioner :=
  { sampleProvisioner with exportDir := "/mnt/100%/".toList }

/-- A file system with the daemon configuration `sampleConfig` and the exports
file `sampleExports`, and no directory. -/
def sampleFiles : World :=
  { files := fun q =>
      if q = sampleProvisioner.ganeshaConfig then some sampleConfig
      else if q = etcExports then some sampleExports
      else none
    dirs := fun _ => false }

/-- The value of a result, `none` when it is an error. -/
def okValue {α : Type} (r : Except Err α) : Option α :=
  match r with
  | .ok a => some a
  | .error _ => none

/-- The volume `Provision` returns for `sampleOptions` in the daemon variant, on
the configuration with the ids 7 and 12. -/
def sampleVolume : PersistentVolume :=
  { Name := "pvc-1".toList
    Labels := []
    Annotations :=
      [ ("kubernetes.io/createdby".toList, "nfs-dynamic-provisioner".toList),
        ("pv.beta.kubernetes.io/gid".toList, "777".toList),
        ("EXPORT_block".toList, ganeshaBlock "/export/pvc-1".toList 13),
        ("Export_Id".toList, "13".toList) ]
    PersistentVolumeReclaimPolicy := ReclaimPolicy.Delete
    AccessModes := ["ReadWriteOnce".toList]
    Capacity := "1Mi".toList
    NFS := { Server := "10.0.0.5".toList, Path := "/export/pvc-1".toList, ReadOnly := false } }

/-! ## Theorems -/

set_option maxRecDepth 100000

theorem exportIdLiteral_eq :
    exportIdLiteral = ['E', 'x', 'p', 'o', 'r', 't', '_', 'I', 'd', ' ', '=', ' '] := by
  rfl

theorem dropLiteral_some {lit s r : Str} (h : dropLiteral lit s = some r) : s = lit ++ r := by
  induction lit generalizing s with
  | nil => simp [dropLiteral] at h; simp [h]
  | cons l ls ih =>
    cases s with
    | nil => simp [dropLiteral] at h
    | cons c cs =>
      simp only [dropLiteral] at h
      split_ifs at h with hc
      subst hc
      simp [ih h]

theorem isDigit_ne_E {c : Char} (h : isDigit c = true) : c ≠ 'E' := by
  rintro rfl
  revert h
  decide

theorem takeWhile_digits_append (ds rest : Str) (c : Char) (hds : ∀ x ∈ ds, isDigit x = true)
    (hc : isDigit c = false) : (ds ++ c :: rest).takeWhile isDigit = ds := by
  induction ds with
  | nil => simp [List.takeWhile, hc]
  | cons d ds ih =>
    have hd : isDigit d = true := hds d (by simp)
    simp [List.takeWhile, hd, ih (fun x hx => hds x (by simp [hx]))]

theorem dropWhile_digits_append (ds rest : Str) (c : Char) (hds : ∀ x ∈ ds, isDigit x = true)
    (hc : isDigit c = false) : (ds ++ c :: rest).dropWhile isDigit = c :: rest := by
  induction ds with
  | nil => simp [List.dropWhile, hc]
  | cons d ds ih =>
    have hd : isDigit d = true := hds d (by simp)
    simp [List.dropWhile, hd, ih (fun x hx => hds x (by simp [hx]))]

theorem takeWhile_all (r : Str) : ∀ x ∈ r.takeWhile isDigit, isDigit x = true := by
  intro x hx
  exact (List.mem_takeWhile_imp hx)

/-- `Atoi` on a non-empty string of digits: the value, bounded by the largest `int`. -/
theorem Atoi_digits (ds : Str) (hne : ds ≠ []) (hds : ∀ x ∈ ds, isDigit x = true) :
    (Atoi ds).1 = clampInt (digitsValue 0 ds) := by
  cases ds with
  | nil => exact absurd rfl hne
  | cons d ds =>
    have hd : isDigit d = true := hds d (by simp)
    have h1 : d ≠ '+' := by rintro rfl; revert hd; decide
    have h2 : d ≠ '-' := by rintro rfl; revert hd; decide
    have hall : (d :: ds).all isDigit = true := by
      simp only [List.all_eq_true]; exact hds
    unfold Atoi clampInt
    simp only [List.head?_cons, Option.some.injEq, h1, h2, or_self, if_false, hall,
      decide_False]
    simp
    split_ifs <;> simp_all

theorem dropWhile_append_all (p : Char → Bool) (xs ys : Str) (h : ∀ x ∈ xs, p x = true) :
    (xs ++ ys).dropWhile p = ys.dropWhile p := by
  induction xs with
  | nil => rfl
  | cons x xs ih =>
    have hx : p x = true := h x (by simp)
    simp [List.dropWhile, hx, ih (fun y hy => h y (by simp [hy]))]

theorem findDigits_token (ds : Str) (hne : ds ≠ []) (hds : ∀ x ∈ ds, isDigit x = true) :
    findDigits (exportIdLiteral ++ ds ++ [';']) = ds := by
  cases ds with
  | nil => exact absurd rfl hne
  | cons d ds =>
    have hd : isDigit d = true := hds d (by simp)
    have hlit : ∀ x ∈ exportIdLiteral, (fun c => !isDigit c) x = true := by decide
    unfold findDigits
    rw [List.append_assoc, dropWhile_append_all _ _ _ hlit]
    simp only [List.cons_append, List.dropWhile, hd, Bool.not_true]
    exact takeWhile_digits_append (d :: ds) [] ';' hds (by decide)

theorem matchExportIdAt_none {s : Str} (h : matchExportIdAt s = none) : tokenAt s = none := by
  unfold matchExportIdAt at h
  unfold tokenAt
  cases hr : dropLiteral exportIdLiteral s with
  | none => rfl
  | some r =>
    simp only [hr] at h ⊢
    rw [if_neg]
    rintro ⟨h4, h5⟩
    cases htw : r.takeWhile isDigit with
    | nil => exact h4 htw
    | cons y ys =>
      cases hdw : r.dropWhile isDigit with
      | nil => simp [hdw] at h5
      | cons x xs =>
        simp only [hdw, List.head?_cons, Option.some.injEq] at h5
        subst h5
        simp [htw, hdw] at h

theorem matchExportIdAt_some {s m : Str} (h : matchExportIdAt s = some m) :
    ∃ ds rest, s = m ++ rest ∧ m = exportIdLiteral ++ ds ++ [';'] ∧ ds ≠ [] ∧
      (∀ x ∈ ds, isDigit x = true) ∧ tokenAt s = some (digitsValue 0 ds) := by
  unfold matchExportIdAt at h
  cases hr : dropLiteral exportIdLiteral s with
  | none => simp [hr] at h
  | some r =>
    simp only [hr] at h
    split at h
    · simp at h
    · rename_i d ds rest htw hdw
      simp only [Option.some.injEq] at h
      refine ⟨d :: ds, rest, ?_, h.symm, by simp, ?_, ?_⟩
      · rw [dropLiteral_some hr, ← h, ← List.takeWhile_append_dropWhile isDigit r, htw, hdw]
        simp
      · rw [← htw]; exact takeWhile_all r
      · unfold tokenAt
        simp [hr, htw, hdw]
    · simp at h

theorem max_clamp (a b : Nat) : clampInt (max a b) = max (clampInt a) (clampInt b) := by
  unfold clampInt maxInt
  rcases le_total a b with h | h
  · simp only [max_eq_right h]
    split_ifs <;> omega
  · simp only [max_eq_left h]
    split_ifs <;> omega

theorem tokenAt_ne_E (c : Char) (cs : Str) (h : c ≠ 'E') : tokenAt (c :: cs) = none := by
  unfold tokenAt
  rw [exportIdLiteral_eq]
  simp [dropLiteral, Ne.symm h]

theorem clampInt_nonneg (n : Nat) : 0 ≤ clampInt n := by
  unfold clampInt maxInt
  split_ifs <;> omega

theorem clampInt_le (n : Nat) : clampInt n ≤ maxInt := by
  unfold clampInt maxInt
  split_ifs <;> omega

theorem findAllExportId_nil (skip : Nat) : findAllExportId skip [] = [] := by
  cases skip <;> rfl

theorem scan_fold (s : Str) : ∀ (skip : Nat) (acc : Int), 0 ≤ acc →
    (∀ x ∈ s.take skip, x ≠ 'E') →
    (findAllExportId skip s).foldl
      (fun next line =>
        let id := (Atoi (findDigits line)).1
        if id > next then id else next) acc
      = max acc (clampInt (largestExportId s)) := by
  induction s with
  | nil =>
    intro skip acc hacc _
    rw [findAllExportId_nil]
    simp [largestExportId, clampInt, hacc]
  | cons c cs ih =>
    intro skip acc hacc hE
    cases skip with
    | succ k =>
      have hc : c ≠ 'E' := hE c (by simp)
      have hk : ∀ x ∈ cs.take k, x ≠ 'E' := fun x hx => hE x (by simp [hx])
      simp only [findAllExportId]
      rw [ih k acc hacc hk]
      simp [largestExportId, tokenAt_ne_E c cs hc]
    | zero =>
      simp only [findAllExportId]
      cases hm : matchExportIdAt (c :: cs) with
      | none =>
        simp only []
        rw [ih 0 acc hacc (by simp)]
        simp [largestExportId, matchExportIdAt_none hm]
      | some m =>
        obtain ⟨ds, rest, hs, hmeq, hne, hds, htok⟩ := matchExportIdAt_some hm
        simp only [List.foldl_cons]
        have hval : (Atoi (findDigits m)).1 = clampInt (digitsValue 0 ds) := by
          rw [hmeq, findDigits_token ds hne hds, Atoi_digits ds hne hds]
        have hskip : ∀ x ∈ cs.take (m.length - 1), x ≠ 'E' := by
          have hm1 : m = c :: m.tail := by
            cases m with
            | nil => rw [hmeq] at *; simp [exportIdLiteral_eq] at hmeq
            | cons a as => simp at hs; simp [hs.1]
          have hcs : cs = m.tail ++ rest := by
            rw [hm1] at hs; simpa using hs
          have htl : cs.take (m.length - 1) = m.tail := by
            rw [hcs]; simp
          rw [htl]
          intro x hx
          rw [hmeq, exportIdLiteral_eq] at hx
          simp at hx
          rcases hx with h | h | h | h | h | h | h | h | h | h | h | h | h
          all_goals first
            | (subst h; decide)
            | exact isDigit_ne_E (hds x h)
        rw [ih (m.length - 1) _ (by rw [hval]; split_ifs <;> omega) hskip, hval]
        simp only [largestExportId, htok, Option.getD_some, max_clamp]
        have := clampInt_nonneg (digitsValue 0 ds)
        split_ifs with h1
        · rw [← max_assoc, max_eq_right (le_of_lt h1)]
        · rw [← max_assoc, max_eq_left (not_lt.mp h1)]


theorem scanMaxExportId_zero (read : Str) :
    scanMaxExportId read 0 = clampInt (largestExportId read) := by
  unfold scanMaxExportId
  rw [scan_fold read 0 0 le_rfl (by simp)]
  exact max_eq_right (clampInt_nonneg _)

theorem dropLiteral_append (lit r : Str) : dropLiteral lit (lit ++ r) = some r := by
  induction lit with
  | nil => simp [dropLiteral]
  | cons l ls ih => simp [dropLiteral, ih]

theorem digitVal_digitChar (d : Nat) (h : d < 10) : digitVal (digitChar d) = d := by
  interval_cases d <;> rfl

theorem isDigit_digitChar (d : Nat) (h : d < 10) : isDigit (digitChar d) = true := by
  interval_cases d <;> rfl

theorem natDigitsAux_append (fuel : Nat) : ∀ (n : Nat) (acc : Str),
    natDigitsAux fuel n acc = natDigitsAux fuel n [] ++ acc := by
  induction fuel with
  | zero => intro n acc; simp [natDigitsAux]
  | succ f ih =>
    intro n acc
    simp only [natDigitsAux]
    split_ifs
    · simp
    · rw [ih (n / 10) (digitChar (n % 10) :: acc), ih (n / 10) [digitChar (n % 10)]]
      simp

theorem digitsValue_cons (acc : Nat) (c : Char) (cs : Str) :
    digitsValue acc (c :: cs) = digitsValue (10 * acc + digitVal c) cs := rfl

theorem digitsValue_nil (acc : Nat) : digitsValue acc [] = acc := rfl

theorem digitsValue_append (xs ys : Str) : ∀ acc : Nat,
    digitsValue acc (xs ++ ys) = digitsValue (digitsValue acc xs) ys := by
  induction xs with
  | nil => intro acc; rfl
  | cons x xs ih =>
    intro acc
    rw [List.cons_append, digitsValue_cons, digitsValue_cons]
    exact ih _

theorem digitsValue_natDigitsAux (fuel : Nat) : ∀ n : Nat, n < fuel →
    digitsValue 0 (natDigitsAux fuel n []) = n := by
  induction fuel with
  | zero => intro n h; omega
  | succ f ih =>
    intro n h
    simp only [natDigitsAux]
    split_ifs with h10
    · rw [digitsValue_cons, digitsValue_nil, digitVal_digitChar n h10]
      omega
    · rw [natDigitsAux_append, digitsValue_append, ih (n / 10) (by omega), digitsValue_cons,
        digitsValue_nil, digitVal_digitChar _ (Nat.mod_lt _ (by norm_num))]
      omega

theorem natDigitsAux_digits (fuel : Nat) : ∀ (n : Nat) (acc : Str),
    (∀ x ∈ acc, isDigit x = true) → ∀ x ∈ natDigitsAux fuel n acc, isDigit x = true := by
  induction fuel with
  | zero => intro n acc hacc; simpa [natDigitsAux] using hacc
  | succ f ih =>
    intro n acc hacc
    simp only [natDigitsAux]
    split_ifs with h10
    · intro x hx
      rcases List.mem_cons.mp hx with h | h
      · rw [h]; exact isDigit_digitChar n h10
      · exact hacc x h
    · apply ih
      intro x hx
      rcases List.mem_cons.mp hx with h | h
      · rw [h]; exact isDigit_digitChar _ (Nat.mod_lt _ (by norm_num))
      · exact hacc x h

theorem natDigits_value (n : Nat) : digitsValue 0 (natDigits n) = n :=
  digitsValue_natDigitsAux (n + 1) n (Nat.lt_succ_self n)

theorem natDigits_digits (n : Nat) : ∀ x ∈ natDigits n, isDigit x = true :=
  natDigitsAux_digits (n + 1) n [] (by simp)

theorem natDigits_ne_nil (n : Nat) : natDigits n ≠ [] := by
  unfold natDigits
  simp only [natDigitsAux]
  split_ifs
  · simp
  · rw [natDigitsAux_append]; simp

/-- The token of the `Export_Id` line of a block is read back as its number. -/
theorem tokenAt_natDigits (n : Nat) (rest : Str) :
    tokenAt (exportIdLiteral ++ natDigits n ++ ';' :: rest) = some n := by
  unfold tokenAt
  rw [List.append_assoc, dropLiteral_append]
  simp only []
  rw [takeWhile_digits_append _ _ _ (natDigits_digits n) (by decide),
    dropWhile_digits_append _ _ _ (natDigits_digits n) (by decide)]
  simp [natDigits_ne_nil, natDigits_value]

theorem le_largestExportId_of_tokenAt {s : Str} {v : Nat} (h : tokenAt s = some v) :
    v ≤ largestExportId s := by
  cases s with
  | nil => simp [tokenAt, dropLiteral, exportIdLiteral_eq] at h
  | cons c cs => simp [largestExportId, h]

theorem largestExportId_append_le (pre s : Str) :
    largestExportId s ≤ largestExportId (pre ++ s) := by
  induction pre with
  | nil => simp
  | cons c cs ih =>
    simp only [List.cons_append, largestExportId]
    exact le_trans ih (le_max_right _ _)

theorem ganeshaBlock_split (path : Str) (n : Nat) :
    ganeshaBlock path (n : Int)
      = "\nEXPORT\n\x7b\n\t".toList ++ (exportIdLiteral ++ natDigits n ++ ';' :: blockTail path) := by
  have hI : Itoa (n : Int) = natDigits n := by
    unfold Itoa
    simp
  unfold ganeshaBlock blockTail
  rw [hI]
  simp only [exportIdLiteral, List.append_assoc]
  rfl

theorem largestExportId_block (pre post path : Str) (n : Nat) :
    n ≤ largestExportId (pre ++ ganeshaBlock path (n : Int) ++ post) := by
  have hsplit : pre ++ ganeshaBlock path (n : Int) ++ post
      = (pre ++ "\nEXPORT\n\x7b\n\t".toList)
        ++ (exportIdLiteral ++ natDigits n ++ ';' :: (blockTail path ++ post)) := by
    rw [ganeshaBlock_split]
    simp only [List.append_assoc, List.cons_append]
  rw [hsplit]
  exact le_trans (le_largestExportId_of_tokenAt (tokenAt_natDigits n _))
    (largestExportId_append_le _ _)

/-! ### Facts about `ganeshaExport` -/

theorem ganeshaExport_unreadable (p : nfsProvisioner) (w : World) (e : Env) (path : Str)
    (h : w.files p.ganeshaConfig = none) :
    claimedExportId (ganeshaExport p w e path) = none ∧ (ganeshaExport p w e path).p = p := by
  simp [ganeshaExport, claimedExportId, h]

theorem ganeshaExport_claims (p : nfsProvisioner) (w : World) (e : Env) (path read : Str)
    (h : w.files p.ganeshaConfig = some read) :
    claimedExportId (ganeshaExport p w e path) = some (claimExportId p.nextExportId read) ∧
      (ganeshaExport p w e path).p = { p with nextExportId := claimExportId p.nextExportId read } ∧
      ∀ block id, (ganeshaExport p w e path).result = .ok (block, id) →
        id = claimExportId p.nextExportId read ∧ block = ganeshaBlock path id := by
  unfold ganeshaExport claimedExportId addToFile
  simp only [h]
  cases e.append <;> cases e.dbusConn <;> cases e.addExport <;> simp

theorem wrapInt_of_range {x : Int} (h1 : minInt ≤ x) (h2 : x ≤ maxInt) : wrapInt x = x := by
  unfold wrapInt
  unfold minInt at h1
  unfold maxInt at h2
  omega

theorem wrapInt_succ_max : wrapInt (maxInt + 1) = minInt := by decide

theorem scanMaxExportId_range (read : Str) :
    0 ≤ scanMaxExportId read 0 ∧ scanMaxExportId read 0 ≤ maxInt := by
  rw [scanMaxExportId_zero]
  exact ⟨clampInt_nonneg _, clampInt_le _⟩

/-- One allocation step: in range, and unless it wraps to the smallest `int` the
new id is above the old counter. -/
theorem claimExportId_step (next : Int) (read : Str) (h1 : minInt ≤ next) (h2 : next ≤ maxInt) :
    minInt ≤ claimExportId next read ∧ claimExportId next read ≤ maxInt ∧
      (claimExportId next read ≠ minInt → next < claimExportId next read) := by
  unfold claimExportId
  have hs := scanMaxExportId_range read
  by_cases h0 : next = 0
  · subst h0
    simp only [if_true]
    by_cases hm : scanMaxExportId read 0 = maxInt
    · rw [hm, wrapInt_succ_max]
      simp [minInt, maxInt]
    · have hlt : scanMaxExportId read 0 + 1 ≤ maxInt := by
        have := hs.2
        omega
      rw [wrapInt_of_range (by unfold minInt; omega) hlt]
      refine ⟨by unfold minInt; omega, hlt, fun _ => by omega⟩
  · simp only [h0, if_false]
    by_cases hm : next = maxInt
    · rw [hm, wrapInt_succ_max]
      simp [minInt, maxInt]
    · have hlt : next + 1 ≤ maxInt := by omega
      rw [wrapInt_of_range (by omega) hlt]
      exact ⟨by omega, hlt, fun _ => by omega⟩

theorem claimedIds_increasing (calls : List (World × Env × Str)) : ∀ p : nfsProvisioner,
    minInt ≤ p.nextExportId → p.nextExportId ≤ maxInt →
    (∀ id ∈ claimedIds p calls, id ≠ minInt) →
    (∀ id ∈ claimedIds p calls, p.nextExportId < id) ∧
      (claimedIds p calls).Pairwise (fun a b => a < b) := by
  induction calls with
  | nil => intro p _ _ _; simp [claimedIds]
  | cons call rest ih =>
    intro p h1 h2 hno
    obtain ⟨w, e, path⟩ := call
    cases hr : w.files p.ganeshaConfig with
    | none =>
      obtain ⟨hc, hp⟩ := ganeshaExport_unreadable p w e path hr
      simp only [claimedIds, hc, hp] at hno ⊢
      exact ih p h1 h2 hno
    | some read =>
      obtain ⟨hc, hp, _⟩ := ganeshaExport_claims p w e path read hr
      simp only [claimedIds, hc, hp] at hno ⊢
      obtain ⟨s1, s2, s3⟩ := claimExportId_step p.nextExportId read h1 h2
      have hid : claimExportId p.nextExportId read ≠ minInt := hno _ (by simp)
      have hlt := s3 hid
      obtain ⟨i1, i2⟩ := ih { p with nextExportId := claimExportId p.nextExportId read } s1 s2
        (fun id hmem => hno id (by simp [hmem]))
      refine ⟨?_, ?_⟩
      · intro id hmem
        rcases List.mem_cons.mp hmem with h | h
        · rw [h]; exact hlt
        · exact lt_trans hlt (i1 id h)
      · exact List.Pairwise.cons i1 i2

/-! ## Export identifier allocation -/

/-- C1 (amended): for a provisioner whose `nextExportId` is 0 and a configuration
content whose largest `Export_Id = N;` token `M` (0 when there is none) satisfies
`M + 2 ≤ 2^63 - 1`, the first `ganeshaExport` claims `M + 1` and the next one
claims `M + 2`, whatever the second call reads; a call that returns without
error returns the id it claimed. -/
theorem ganeshaExport_first_ids (p : nfsProvisioner) (w1 w2 : World) (e1 e2 : Env)
    (path1 path2 content content2 : Str)
    (hfresh : p.nextExportId = 0)
    (hread1 : w1.files p.ganeshaConfig = some content)
    (hread2 : w2.files p.ganeshaConfig = some content2)
    (hM : largestExportId content + 2 ≤ 2 ^ 63 - 1) :
    claimedExportId (ganeshaExport p w1 e1 path1) = some ((largestExportId content : Int) + 1) ∧
    claimedExportId (ganeshaExport (ganeshaExport p w1 e1 path1).p w2 e2 path2)
      = some ((largestExportId content : Int) + 2) ∧
    (∀ block id, (ganeshaExport p w1 e1 path1).result = .ok (block, id) →
      id = (largestExportId content : Int) + 1) ∧
    (∀ block id, (ganeshaExport (ganeshaExport p w1 e1 path1).p w2 e2 path2).result
      = .ok (block, id) → id = (largestExportId content : Int) + 2) := by
  obtain ⟨c1, p1, r1⟩ := ganeshaExport_claims p w1 e1 path1 content hread1
  have hfirst : claimExportId p.nextExportId content = (largestExportId content : Int) + 1 := by
    unfold claimExportId
    rw [hfresh, if_pos rfl, scanMaxExportId_zero]
    have hc : clampInt (largestExportId content) = (largestExportId content : Int) := by
      unfold clampInt
      rw [if_neg (by omega)]
    rw [hc]
    exact wrapInt_of_range (by unfold minInt; omega) (by unfold maxInt; omega)
  have hread2p : w2.files (ganeshaExport p w1 e1 path1).p.ganeshaConfig = some content2 := by
    rw [p1]; exact hread2
  obtain ⟨c2, _, r2⟩ :=
    ganeshaExport_claims (ganeshaExport p w1 e1 path1).p w2 e2 path2 content2 hread2p
  have hsecond : claimExportId (ganeshaExport p w1 e1 path1).p.nextExportId content2
      = (largestExportId content : Int) + 2 := by
    rw [p1]
    simp only [hfirst]
    unfold claimExportId
    rw [if_neg (by omega)]
    have : ((largestExportId content : Int) + 1 + 1) = (largestExportId content : Int) + 2 := by
      ring
    rw [this]
    exact wrapInt_of_range (by unfold minInt; omega) (by unfold maxInt; omega)
  refine ⟨by rw [c1, hfirst], by rw [c2, hsecond], ?_, ?_⟩
  · intro block id h
    rw [(r1 block id h).1, hfirst]
  · intro block id h
    rw [(r2 block id h).1, hsecond]


/-- C1, at a configuration holding `Export_Id = 7;` and `Export_Id = 12;`: the
first publish claims 13, the second, made on the state the first left, claims 14. -/
theorem ganeshaExport_first_ids_witness :
    largestExportId sampleConfig = 12 ∧
    claimedExportId
      (ganeshaExport sampleProvisioner (sampleWorld sampleProvisioner.ganeshaConfig sampleConfig)
        sampleEnv "/export/pvc-1".toList) = some 13 ∧
    claimedExportId
      (ganeshaExport
        (ganeshaExport sampleProvisioner
          (sampleWorld sampleProvisioner.ganeshaConfig sampleConfig) sampleEnv
          "/export/pvc-1".toList).p
        (ganeshaExport sampleProvisioner
          (sampleWorld sampleProvisioner.ganeshaConfig sampleConfig) sampleEnv
          "/export/pvc-1".toList).w
        sampleEnv "/export/pvc-2".toList) = some 14 := by
  have h12 : largestExportId sampleConfig = 12 := by decide
  have h := ganeshaExport_first_ids sampleProvisioner
    (sampleWorld sampleProvisioner.ganeshaConfig sampleConfig)
    (ganeshaExport sampleProvisioner
      (sampleWorld sampleProvisioner.ganeshaConfig sampleConfig) sampleEnv
      "/export/pvc-1".toList).w
    sampleEnv sampleEnv "/export/pvc-1".toList "/export/pvc-2".toList sampleConfig
    (sampleConfig ++ ganeshaBlock "/export/pvc-1".toList 13)
    (by rfl) (by rfl) (by decide) (by rw [h12]; norm_num)
  rw [h12] at h
  exact ⟨h12, h.1, h.2.1⟩

/-- C1 as stated fails when the increment overflows: with `Export_Id =
9223372036854775807;` in the file the first call claims the smallest `int`, not `M + 1`. -/
theorem ganeshaExport_first_id_overflow :
    largestExportId "Export_Id = 9223372036854775807;".toList = 9223372036854775807 ∧
    claimedExportId
      (ganeshaExport sampleProvisioner
        (sampleWorld sampleProvisioner.ganeshaConfig "Export_Id = 9223372036854775807;".toList)
        sampleEnv "/export/pvc-1".toList) = some (-9223372036854775808) ∧
    claimedExportId
      (ganeshaExport sampleProvisioner
        (sampleWorld sampleProvisioner.ganeshaConfig "Export_Id = 9223372036854775807;".toList)
        sampleEnv "/export/pvc-1".toList)
      ≠ some ((largestExportId "Export_Id = 9223372036854775807;".toList : Int) + 1) := by
  decide

/-- C2 (amended): for every sequence of `ganeshaExport` calls on one provisioner
whose counter is a valid `int`, whatever each call reads and however its later
steps end, as long as no increment overflows (no claimed id is the smallest
`int`), each claimed id is strictly greater than the ones claimed before it, so
the ids are pairwise distinct. -/
theorem claimedIds_strictly_increasing (p : nfsProvisioner) (calls : List (World × Env × Str))
    (hlo : minInt ≤ p.nextExportId) (hhi : p.nextExportId ≤ maxInt)
    (hno : ∀ id ∈ claimedIds p calls, id ≠ minInt) :
    (claimedIds p calls).Pairwise (fun a b => a < b) ∧ (claimedIds p calls).Nodup := by
  have h := (claimedIds_increasing calls p hlo hhi hno).2
  exact ⟨h, h.imp (fun hab => ne_of_lt hab)⟩

/-- C2 at four calls, one with a failed control-channel call, one with an
unreadable configuration, one with a failed append: the ids are 13, 14, 15. -/
theorem claimedIds_strictly_increasing_witness :
    claimedIds sampleProvisioner sampleCalls = [13, 14, 15] ∧
    (claimedIds sampleProvisioner sampleCalls).Pairwise (fun a b => a < b) ∧
    (claimedIds sampleProvisioner sampleCalls).Nodup :=
  ⟨by decide,
    claimedIds_strictly_increasing sampleProvisioner sampleCalls (by decide) (by decide)
      (by decide)⟩

/-- C2 as stated fails when the counter passes the largest `int`: after the id
`2^63 - 1` the next call claims `-2^63`, which is smaller. -/
theorem claimedIds_overflow :
    claimedIds sampleProvisioner overflowCalls
      = [9223372036854775807, -9223372036854775808] ∧
    ¬ (claimedIds sampleProvisioner overflowCalls).Pairwise (fun a b => a < b) := by
  decide

/-- C3 (amended): for every path and every id `N` with `0 ≤ N ≤ 2^63 - 1`, the
block `ganeshaExport` builds for `N` is recognised by the identifier scan
wherever it stands in a configuration (the scan's maximum is at least `N`); and
when no `Export_Id` of that configuration exceeds `2^63 - 2`, the first
`ganeshaExport` of a fresh provisioner reading it claims an id above `N`. -/
theorem fresh_id_above_block (p : nfsProvisioner) (w : World) (e : Env)
    (newPath pre post path : Str) (N : Int)
    (hfresh : p.nextExportId = 0)
    (hread : w.files p.ganeshaConfig = some (pre ++ ganeshaBlock path N ++ post))
    (h0 : 0 ≤ N) (hN : N ≤ maxInt) :
    N ≤ scanMaxExportId (pre ++ ganeshaBlock path N ++ post) 0 ∧
    (largestExportId (pre ++ ganeshaBlock path N ++ post) ≤ 2 ^ 63 - 2 →
      ∃ id, claimedExportId (ganeshaExport p w e newPath) = some id ∧ N < id) := by
  obtain ⟨n, rfl⟩ := Int.eq_ofNat_of_zero_le h0
  have hle := largestExportId_block pre post path n
  have hscan : (n : Int) ≤ scanMaxExportId (pre ++ ganeshaBlock path (n : Int) ++ post) 0 := by
    rw [scanMaxExportId_zero]
    unfold clampInt
    split_ifs
    · exact hN
    · exact_mod_cast hle
  refine ⟨hscan, fun hmax => ?_⟩
  obtain ⟨c1, _, _⟩ := ganeshaExport_claims p w e newPath _ hread
  refine ⟨_, c1, ?_⟩
  unfold claimExportId
  rw [hfresh, if_pos rfl]
  have hr := scanMaxExportId_range (pre ++ ganeshaBlock path (n : Int) ++ post)
  have hs : scanMaxExportId (pre ++ ganeshaBlock path (n : Int) ++ post) 0 ≤ 2 ^ 63 - 2 := by
    rw [scanMaxExportId_zero]
    unfold clampInt
    rw [if_neg (by omega)]
    omega
  rw [wrapInt_of_range (by unfold minInt; omega) (by unfold maxInt; omega)]
  omega

/-- C3 at a configuration that holds, between other text, the block written for
the path `/export/pvc-1` with id 41: the scan finds at least 41 and a fresh
provisioner claims an id above 41. -/
theorem fresh_id_above_block_witness :
    (41 : Int) ≤ scanMaxExportId
      (sampleConfig ++ ganeshaBlock "/export/pvc-1".toList 41 ++ "# end\n".toList) 0 ∧
    ∃ id, claimedExportId
        (ganeshaExport sampleProvisioner
          (sampleWorld sampleProvisioner.ganeshaConfig
            (sampleConfig ++ ganeshaBlock "/export/pvc-1".toList 41 ++ "# end\n".toList))
          sampleEnv "/export/pvc-2".toList) = some id ∧ (41 : Int) < id :=
  have h := fresh_id_above_block sampleProvisioner
    (sampleWorld sampleProvisioner.ganeshaConfig
      (sampleConfig ++ ganeshaBlock "/export/pvc-1".toList 41 ++ "# end\n".toList))
    sampleEnv "/export/pvc-2".toList sampleConfig "# end\n".toList "/export/pvc-1".toList 41
    (by rfl) (by rfl) (by decide) (by decide)
  ⟨h.1, h.2 (by decide)⟩

/-- C3 as stated fails for the block with the largest `int` as id: a fresh
provisioner that reads it claims `-2^63`, which is not greater. -/
theorem fresh_id_overflow :
    claimedExportId
      (ganeshaExport sampleProvisioner
        (sampleWorld sampleProvisioner.ganeshaConfig
          (ganeshaBlock "/export/pvc-1".toList 9223372036854775807))
        sampleEnv "/export/pvc-2".toList) = some (-9223372036854775808) ∧
    ¬ ((9223372036854775807 : Int) < -9223372036854775808) := by
  decide

/-! ## Rollback of the export configuration -/

theorem replaceAux_skip (old new : Str) (s : Str) : ∀ k, s.length ≤ k →
    replaceAux old new k s = [] := by
  induction s with
  | nil => intro k _; cases k <;> rfl
  | cons c cs ih =>
    intro k hk
    cases k with
    | zero => simp at hk
    | succ k =>
      simp only [replaceAux]
      exact ih k (by simpa using hk)

theorem replaceAux_zero_cons (old new : Str) (c : Char) (cs : Str) :
    replaceAux old new 0 (c :: cs)
      = if old.isPrefixOf (c :: cs) = true then new ++ replaceAux old new (old.length - 1) cs
        else c :: replaceAux old new 0 cs := rfl

theorem isPrefixOf_self_append (t rest : Str) : t.isPrefixOf (t ++ rest) = true := by
  induction t with
  | nil => simp [List.isPrefixOf]
  | cons x xs ih => simp [List.isPrefixOf, ih]

theorem replaceAux_appended (t : Str) (ht : t ≠ []) (c : Str) :
    (∀ i, i < c.length → t.isPrefixOf ((c ++ t).drop i) = false) →
    replaceAux t [] 0 (c ++ t) = c := by
  induction c with
  | nil =>
    intro _
    cases t with
    | nil => exact absurd rfl ht
    | cons x xs =>
      have hp : (x :: xs).isPrefixOf (x :: xs) = true := by
        simp
      rw [List.nil_append, replaceAux_zero_cons, if_pos hp, List.nil_append]
      exact replaceAux_skip _ _ xs _ (by simp)
  | cons a cs ih =>
    intro h
    have h0 : t.isPrefixOf (a :: (cs ++ t)) = false := by
      simpa using h 0 (by simp)
    rw [List.cons_append, replaceAux_zero_cons, h0, if_neg (by simp)]
    congr 1
    apply ih
    intro i hi
    simpa using h (i + 1) (by simpa using hi)

theorem Replace_appended (c t : Str) (ht : t ≠ []) (h : occursOnlyAtEnd c t = true) :
    Replace (c ++ t) t [] = c := by
  unfold Replace
  rw [if_neg ht]
  apply replaceAux_appended t ht c
  intro i hi
  unfold occursOnlyAtEnd at h
  rw [List.all_eq_true] at h
  have := h i (List.mem_range.mpr hi)
  simpa using this

theorem World.write_restore (w : World) (path c x : Str) (h : w.files path = some c) :
    (w.write path x).write path c = w := by
  cases w with
  | mk files dirs =>
    simp only [World.write, World.mk.injEq, and_true]
    funext q
    by_cases hq : q = path
    · simp [hq]; exact h.symm
    · simp [hq]

theorem ganeshaBlock_ne_nil (path : Str) (id : Int) : ganeshaBlock path id ≠ [] := by
  unfold ganeshaBlock
  simp

theorem exportsLine_ne_nil (path : Str) : exportsLine path ≠ [] := by
  unfold exportsLine
  simp

/-- C4 (amended): when the append succeeded and the control-channel call (daemon
variant) or the refresh command (kernel variant) then fails, `removeFromFile`
leaves the file system exactly as it was before the publish, the configuration
byte for byte equal to its prior content `c`, provided the appended block or
line `t` occurs in `c` followed by `t` only as the appended suffix
(`removeFromFile` deletes every occurrence of `t`, not only the appended one). -/
theorem rollback_restores (p : nfsProvisioner) (w : World) (e : Env) (path c : Str)
    (happend : e.append = WriteOutcome.ok) (hrewrite : e.rewrite = WriteOutcome.ok) :
    (w.files p.ganeshaConfig = some c →
      (e.dbusConn = false ∨ e.addExport = false) →
      occursOnlyAtEnd c (ganeshaBlock path (claimExportId p.nextExportId c)) = true →
      (ganeshaExport p w e path).w = w ∧ (ganeshaExport p w e path).w.files p.ganeshaConfig = some c ∧
        ∃ err, (ganeshaExport p w e path).result = .error err) ∧
    (w.files etcExports = some c →
      e.exportfs = false →
      occursOnlyAtEnd c (exportsLine path) = true →
      (kernelExport p w e path).w = w ∧ (kernelExport p w e path).w.files etcExports = some c ∧
        ∃ err, (kernelExport p w e path).result = .error err) := by
  constructor
  · intro hc hfail honly
    have hrep := Replace_appended c _ (ganeshaBlock_ne_nil path _) honly
    have hw : (ganeshaExport p w e path).w = w := by
      unfold ganeshaExport addToFile removeFromFile
      simp only [hc, happend, hrewrite]
      rcases hfail with hf | hf
      · simp [hf, World.write, hrep]
        exact World.write_restore w _ c _ hc
      · cases hd : e.dbusConn
        · simp [World.write, hrep]
          exact World.write_restore w _ c _ hc
        · simp [hf, World.write, hrep]
          exact World.write_restore w _ c _ hc
    refine ⟨hw, by rw [hw]; exact hc, ?_⟩
    unfold ganeshaExport addToFile
    simp only [hc, happend]
    rcases hfail with hf | hf
    · simp [hf]
    · cases hd : e.dbusConn <;> simp [hf]
  · intro hc hfail honly
    have hrep := Replace_appended c _ (exportsLine_ne_nil path) honly
    have hw : (kernelExport p w e path).w = w := by
      unfold kernelExport addToFile removeFromFile
      simp [hc, happend, hrewrite, hfail, World.write, hrep]
      exact World.write_restore w _ c _ hc
    refine ⟨hw, by rw [hw]; exact hc, ?_⟩
    unfold kernelExport addToFile
    simp [hc, happend, hfail]

/-- C4 at a daemon configuration with two exports and a failing `AddExport`, and
at an exports file with one other line and a failing `exportfs -r`: the file is
left with its prior content. -/
theorem rollback_restores_witness :
    (ganeshaExport sampleProvisioner (sampleWorld sampleProvisioner.ganeshaConfig sampleConfig)
        busFailsEnv "/export/pvc-1".toList).w.files sampleProvisioner.ganeshaConfig
      = some sampleConfig ∧
    (kernelExport sampleProvisioner (sampleWorld etcExports sampleExports)
        exportfsFailsEnv "/export/pvc-1".toList).w.files etcExports
      = some sampleExports :=
  ⟨((rollback_restores sampleProvisioner
        (sampleWorld sampleProvisioner.ganeshaConfig sampleConfig) busFailsEnv
        "/export/pvc-1".toList sampleConfig (by rfl) (by rfl)).1
      (by rfl) (Or.inr (by rfl)) (by decide)).2.1,
   ((rollback_restores sampleProvisioner (sampleWorld etcExports sampleExports)
        exportfsFailsEnv "/export/pvc-1".toList sampleExports (by rfl) (by rfl)).2
      (by rfl) (by rfl) (by decide)).2.1⟩

/-- C4 as stated fails when the text appended is already in the file: with the
line for `/export/pvc-1` already in `/etc/exports`, a publish of that path whose
refresh fails removes both copies and leaves the file empty. -/
theorem rollback_removes_earlier_copy :
    (kernelExport sampleProvisioner (sampleWorld etcExports staleExports)
        exportfsFailsEnv "/export/pvc-1".toList).w.files etcExports = some [] ∧
    (kernelExport sampleProvisioner (sampleWorld etcExports staleExports)
        exportfsFailsEnv "/export/pvc-1".toList).w.files etcExports ≠ some staleExports := by
  decide

/-! ## Provision -/

/-- C5 (the code at the failing input): with no range of group ids configured,
`Provision` creates `/export/pvc-1`, fails in `generateSupplementalGroup`, and
returns with the directory still there, and so it does with the default range
when the random source cannot be read for the draw within the range; on the same
input with a failing `chgrp`, the sibling error path removes the directory. -/
theorem provision_leaves_directory :
    (Provision { sampleProvisioner with ranges := [] }
        (sampleWorld sampleProvisioner.ganeshaConfig sampleConfig) sampleEnv sampleOptions).result
      = .error (Err.supplementalGroup Err.emptyRanges) ∧
    (sampleWorld sampleProvisioner.ganeshaConfig sampleConfig).dirs "/export/pvc-1".toList = false ∧
    (Provision { sampleProvisioner with ranges := [] }
        (sampleWorld sampleProvisioner.ganeshaConfig sampleConfig) sampleEnv sampleOptions).w.dirs
      "/export/pvc-1".toList = true ∧
    (Provision sampleProvisioner (sampleWorld sampleProvisioner.ganeshaConfig sampleConfig)
        { sampleEnv with draw2 := none } sampleOptions).result
      = .error (Err.supplementalGroup Err.randRead) ∧
    (Provision sampleProvisioner (sampleWorld sampleProvisioner.ganeshaConfig sampleConfig)
        { sampleEnv with draw2 := none } sampleOptions).w.dirs "/export/pvc-1".toList = true ∧
    (Provision sampleProvisioner (sampleWorld sampleProvisioner.ganeshaConfig sampleConfig)
        { sampleEnv with chgrp := false } sampleOptions).result = .error Err.chgrpFailed ∧
    (Provision sampleProvisioner (sampleWorld sampleProvisioner.ganeshaConfig sampleConfig)
        { sampleEnv with chgrp := false } sampleOptions).w.dirs "/export/pvc-1".toList = false :=
  ⟨by rfl, by decide, by decide, by rfl, by decide, by rfl, by decide⟩

/-- C8: for every options value whose parameters are non-empty or whose selector
is set, `Provision` returns an error and no volume, and leaves the provisioner
(so no export id is consumed) and the file system (no directory created, no
export configuration changed) exactly as they were. -/
theorem provision_rejects_unsupported (p : nfsProvisioner) (w : World) (e : Env)
    (options : VolumeOptions)
    (h : (∃ kv kvs, options.Parameters = some (kv :: kvs)) ∨ options.Selector ≠ none) :
    (∃ err, (Provision p w e options).result = .error err) ∧
    (Provision p w e options).p = p ∧ (Provision p w e options).w = w := by
  unfold Provision createVolume
  rcases h with ⟨kv, kvs, hp⟩ | hs
  · simp [hp]
  · cases hpar : options.Parameters with
    | some m => simp
    | none =>
      cases hsel : options.Selector with
      | none => exact absurd hsel hs
      | some s => simp

/-- C8 at options with one storage class parameter: the call is rejected with the
state untouched. -/
theorem provision_rejects_unsupported_witness :
    (∃ err, (Provision sampleProvisioner
        (sampleWorld sampleProvisioner.ganeshaConfig sampleConfig) sampleEnv
        { sampleOptions with Parameters := some [("type".toList, "fast".toList)] }).result
      = .error err) ∧
    (Provision sampleProvisioner (sampleWorld sampleProvisioner.ganeshaConfig sampleConfig)
        sampleEnv { sampleOptions with Parameters := some [("type".toList, "fast".toList)] }).p
      = sampleProvisioner ∧
    (Provision sampleProvisioner (sampleWorld sampleProvisioner.ganeshaConfig sampleConfig)
        sampleEnv { sampleOptions with Parameters := some [("type".toList, "fast".toList)] }).w
      = sampleWorld sampleProvisioner.ganeshaConfig sampleConfig :=
  provision_rejects_unsupported sampleProvisioner
    (sampleWorld sampleProvisioner.ganeshaConfig sampleConfig) sampleEnv
    { sampleOptions with Parameters := some [("type".toList, "fast".toList)] }
    (Or.inl ⟨_, _, rfl⟩)

/-- C9 (the code at the failing input): with the single configured range
1000..2000, whatever the two random draws give, `generateSupplementalGroup`
returns 777, which lies in no configured range. -/
theorem generateSupplementalGroup_returns_777 (d1 d2 : Nat) :
    generateSupplementalGroup { sampleProvisioner with ranges := [{ Min := 1000, Max := 2000 }] }
        { sampleEnv with draw1 := some d1, draw2 := some d2 } = .ok 777 ∧
    ¬ ∃ r ∈ [({ Min := 1000, Max := 2000 } : IDRange)], r.Min ≤ 777 ∧ (777 : Int) ≤ r.Max := by
  constructor
  · simp [generateSupplementalGroup, randInt, wrapInt]
  · simp

/-! ## Classification rules of the controller -/

/-- C6: `shouldProvision` is true if and only if the claim's bound volume name
is empty, its class annotation names a class present in the cache, and that
class's provisioner is the controller's provisioner name; so an already bound
claim, a claim naming an uncached class, and a claim whose class has another
provisioner each give false. The last four parts are the rows of
`TestShouldProvision`. -/
theorem shouldProvision_iff (provisionerName : Str) (classes : List StorageClass)
    (claim : Claim) :
    (shouldProvision provisionerName classes claim = true ↔
      claim.boundVolumeName = [] ∧
        ∃ cls, getClass classes claim.classAnnotation = some cls ∧
          cls.provisionerName = provisionerName) ∧
    (claim.boundVolumeName ≠ [] → shouldProvision provisionerName classes claim = false) ∧
    (getClass classes claim.classAnnotation = none →
      shouldProvision provisionerName classes claim = false) ∧
    (∀ cls, getClass classes claim.classAnnotation = some cls →
      cls.provisionerName ≠ provisionerName →
      shouldProvision provisionerName classes claim = false) ∧
    shouldProvision "foo.bar/baz".toList [newStorageClass "class-1".toList "foo.bar/baz".toList]
      (newClaim "claim-1".toList "1-1".toList "class-1".toList []) = true ∧
    shouldProvision "foo.bar/baz".toList [newStorageClass "class-1".toList "foo.bar/baz".toList]
      (newClaim "claim-1".toList "1-1".toList "class-1".toList "foo".toList) = false ∧
    shouldProvision "foo.bar/baz".toList [newStorageClass "class-1".toList "foo.bar/baz".toList]
      (newClaim "claim-1".toList "1-1".toList "class-2".toList []) = false ∧
    shouldProvision "foo.bar/baz".toList [newStorageClass "class-1".toList "abc.def/ghi".toList]
      (newClaim "claim-1".toList "1-1".toList "class-1".toList []) = false := by
  refine ⟨?_, ?_, ?_, ?_, by decide, by decide, by decide, by decide⟩
  all_goals unfold shouldProvision
  · by_cases hb : claim.boundVolumeName = []
    · cases hc : getClass classes claim.classAnnotation with
      | none => simp [hb]
      | some cls => simp [hb]
    · simp [hb]
  · intro hb
    simp [hb]
  · intro hc
    simp [hc]
  · intro cls hc hne
    simp [hc, hne]

/-- C7: `shouldDelete` is true if and only if the volume's phase is Released, its
reclaim policy is Delete, and its `dynamically-provisioned-by` annotation is the
controller's provisioner name; so a Bound volume, a Retain volume, and a volume
annotated with another provisioner each give false. The last four parts are the
rows of `TestShouldDelete`. -/
theorem shouldDelete_iff (provisionerName : Str) (volume : Volume) :
    (shouldDelete provisionerName volume = true ↔
      volume.phase = VolumePhase.Released ∧ volume.reclaimPolicy = ReclaimPolicy.Delete ∧
        mapGet volume.annotations annDynamicallyProvisioned = some provisionerName) ∧
    (volume.phase = VolumePhase.Bound → shouldDelete provisionerName volume = false) ∧
    (volume.reclaimPolicy = ReclaimPolicy.Retain → shouldDelete provisionerName volume = false) ∧
    (∀ other, mapGet volume.annotations annDynamicallyProvisioned = some other →
      other ≠ provisionerName → shouldDelete provisionerName volume = false) ∧
    shouldDelete "foo.bar/baz".toList
      (newVolume "volume-1".toList VolumePhase.Released ReclaimPolicy.Delete
        [(annDynamicallyProvisioned, "foo.bar/baz".toList)]) = true ∧
    shouldDelete "foo.bar/baz".toList
      (newVolume "volume-1".toList VolumePhase.Bound ReclaimPolicy.Delete
        [(annDynamicallyProvisioned, "foo.bar/baz".toList)]) = false ∧
    shouldDelete "foo.bar/baz".toList
      (newVolume "volume-1".toList VolumePhase.Released ReclaimPolicy.Retain
        [(annDynamicallyProvisioned, "foo.bar/baz".toList)]) = false ∧
    shouldDelete "foo.bar/baz".toList
      (newVolume "volume-1".toList VolumePhase.Released ReclaimPolicy.Delete
        [(annDynamicallyProvisioned, "abc.def/ghi".toList)]) = false := by
  refine ⟨?_, ?_, ?_, ?_, by decide, by decide, by decide, by decide⟩
  all_goals unfold shouldDelete
  · by_cases hp : volume.phase = VolumePhase.Released
    · by_cases hr : volume.reclaimPolicy = ReclaimPolicy.Delete
      · simp [hp, hr]
      · simp [hp, hr]
    · simp [hp]
  · intro hp
    simp [hp]
  · intro hr
    simp [hr]
  · intro other ho hne
    simp [ho, hne]

/-! ## Server address -/

theorem sameKeys_iff (a b : List (Int × Str)) :
    sameKeys a b = true ↔ ∀ k, k ∈ b ↔ k ∈ a := by
  unfold sameKeys
  simp only [Bool.and_eq_true, List.all_eq_true, decide_eq_true_eq]
  constructor
  · rintro ⟨h1, h2⟩ k
    exact ⟨h2 k, h1 k⟩
  · intro h
    exact ⟨fun k hk => (h k).mpr hk, fun k hk => (h k).mp hk⟩

theorem validSubset_iff (fallback : Str) (subsets : List EndpointSubset) :
    validSubset fallback subsets = true ↔
      ∃ subset ∈ subsets, (∃ address, subset.Addresses = [address] ∧ address.IP = fallback) ∧
        sameKeys expectedPorts (actualPorts subset) = true := by
  induction subsets with
  | nil => simp [validSubset]
  | cons s rest ih =>
    unfold validSubset
    split
    · rename_i address haddr
      by_cases hip : address.IP = fallback
      · by_cases hk : sameKeys expectedPorts (actualPorts s) = true
        · simp only [hip, ne_eq, not_true_eq_false, if_false, hk, Bool.true_eq_false, true_iff]
          exact ⟨s, by simp, ⟨address, haddr, hip⟩, hk⟩
        · simp only [hip, ne_eq, not_true_eq_false, if_false, Bool.not_eq_true] at hk ⊢
          simp only [hk, if_true, ih, List.mem_cons]
          constructor
          · rintro ⟨x, hx, h⟩
            exact ⟨x, Or.inr hx, h⟩
          · rintro ⟨x, hx | hx, h1, h2⟩
            · subst hx
              rw [hk] at h2
              exact absurd h2 (by simp)
            · exact ⟨x, hx, h1, h2⟩
      · simp only [ne_eq, hip, not_false_eq_true, if_true, ih, List.mem_cons]
        constructor
        · rintro ⟨x, hx, h⟩
          exact ⟨x, Or.inr hx, h⟩
        · rintro ⟨x, hx | hx, ⟨a, ha1, ha2⟩, h2⟩
          · subst hx
            rw [haddr] at ha1
            simp only [List.cons.injEq, and_true] at ha1
            subst ha1
            exact absurd ha2 hip
          · exact ⟨x, hx, ⟨a, ha1, ha2⟩, h2⟩
    · rename_i hne
      simp only [ih, List.mem_cons]
      constructor
      · rintro ⟨x, hx, h⟩
        exact ⟨x, Or.inr hx, h⟩
      · rintro ⟨x, hx | hx, ⟨a, ha1, ha2⟩, h2⟩
        · subst hx
          exact absurd ha1 (hne a)
        · exact ⟨x, hx, ⟨a, ha1, ha2⟩, h2⟩

theorem fallbackServer_eq_some (e : Env) (pod : Str) :
    fallbackServer e = some pod ↔
      (e.MY_POD_IP ≠ [] ∧ pod = e.MY_POD_IP) ∨ (e.MY_POD_IP = [] ∧ e.hostname = some pod) := by
  unfold fallbackServer
  by_cases h : e.MY_POD_IP = []
  · simp [h]
  · simp [h, eq_comm]

theorem actualPorts_exact (subset : EndpointSubset) :
    sameKeys expectedPorts (actualPorts subset) = true ↔
      ∀ (port : Int) (protocol : Str),
        (∃ ep ∈ subset.Ports, ep.Port = port ∧ ep.Protocol = protocol) ↔
          (port, protocol) ∈ [(2049, "TCP".toList), (20048, "TCP".toList), (111, "TCP".toList),
            (111, "UDP".toList)] := by
  have hexp : ∀ k : Int × Str, k ∈ expectedPorts ↔
      k ∈ [(2049, "TCP".toList), (20048, "TCP".toList), (111, "TCP".toList),
        (111, "UDP".toList)] := by
    intro k
    have h1 : ProtocolTCP = "TCP".toList := rfl
    have h2 : ProtocolUDP = "UDP".toList := rfl
    rw [expectedPorts, h1, h2]
    simp only [List.mem_cons, List.mem_singleton, List.not_mem_nil, or_false]
    tauto
  have hact : ∀ (port : Int) (protocol : Str), (port, protocol) ∈ actualPorts subset ↔
      ∃ ep ∈ subset.Ports, ep.Port = port ∧ ep.Protocol = protocol := by
    intro port protocol
    simp only [actualPorts, List.mem_map, Prod.mk.injEq]
  rw [sameKeys_iff]
  constructor
  · intro h port protocol
    rw [← hact, h, hexp]
  · intro h k
    obtain ⟨port, protocol⟩ := k
    rw [hact, h, hexp]

/-- What `getServer` does when the service name and the namespace are set and the
service is found, stated on the environment variables, the raw output of
`hostname -i` and the addresses and ports of the endpoint subsets. -/
theorem getServer_with_service (e : Env) (service : Service)
    (hname : e.MY_SERVICE_NAME ≠ []) (hns : e.MY_POD_NAMESPACE ≠ [])
    (hsvc : e.services e.MY_POD_NAMESPACE e.MY_SERVICE_NAME = some service) :
    (getServer e = .ok service.ClusterIP ↔
      (∃ pod, ((e.MY_POD_IP ≠ [] ∧ pod = e.MY_POD_IP) ∨
            (e.MY_POD_IP = [] ∧ e.hostname = some pod)) ∧
        ∃ subset ∈ e.endpoints e.MY_POD_NAMESPACE e.MY_SERVICE_NAME,
          (∃ address, subset.Addresses = [address] ∧ address.IP = pod) ∧
          ∀ (port : Int) (protocol : Str),
            (∃ ep ∈ subset.Ports, ep.Port = port ∧ ep.Protocol = protocol) ↔
              (port, protocol) ∈ [(2049, "TCP".toList), (20048, "TCP".toList),
                (111, "TCP".toList), (111, "UDP".toList)]) ∧
      service.ClusterIP ≠ "None".toList) ∧
    (getServer e ≠ .ok service.ClusterIP → ∃ err, getServer e = .error err) := by
  have hnone : ClusterIPNone = "None".toList := rfl
  rw [← hnone]
  simp only [← fallbackServer_eq_some, ← actualPorts_exact]
  unfold getServer
  cases hfb : fallbackServer e with
  | none => simp
  | some pod =>
    simp only [hname, hns, if_false, hsvc]
    by_cases hv : validSubset pod (e.endpoints e.MY_POD_NAMESPACE e.MY_SERVICE_NAME) = true
    · have hv2 := (validSubset_iff _ _).mp hv
      simp only [hv, Bool.true_eq_false, if_false]
      by_cases hip : service.ClusterIP = ClusterIPNone
      · simp [hip]
      · simp only [hip, if_false, true_iff, ne_eq, not_false_eq_true, and_true, not_true_eq_false,
          false_implies, Option.some.injEq, exists_eq_left']
        exact hv2
    · have hv3 : validSubset pod (e.endpoints e.MY_POD_NAMESPACE e.MY_SERVICE_NAME) = false := by
        simpa using hv
      simp only [hv3, if_true]
      refine ⟨?_, fun _ => ⟨_, rfl⟩⟩
      constructor
      · intro h; cases h
      · rintro ⟨⟨pod2, hp2, hsub⟩, _⟩
        exfalso
        apply hv
        simp only [Option.some.injEq] at hp2
        subst hp2
        exact (validSubset_iff _ _).mpr hsub

/-- C10 (the code at the failing input): `MY_POD_IP` is unset, `hostname -i` prints
the pod's address `10.0.0.5` and a newline, the service `nfs` has the cluster IP
`10.3.0.9` and one endpoint subset with the single address `10.0.0.5` and the
four ports. The output of `hostname -i` is compared untrimmed, so `getServer`
rejects the service as not valid, where the same service is accepted when
`MY_POD_IP` is `10.0.0.5`; without a service name the untrimmed output is
returned as the server. The other parts pin the checks: a subset without ports
or with a fifth port is not valid, a failing `hostname -i` is an error, the
cluster IP `None` is an error, and in general the cluster IP is returned exactly
when a subset has one address, equal to `MY_POD_IP` or else to the raw output of
`hostname -i`, and exactly the four ports, and the cluster IP is not `None`. -/
theorem getServer_hostname_untrimmed :
    getServer hostnameEnv = .error Err.serviceInvalid ∧
    hostnameEnv.MY_POD_IP = [] ∧ hostnameEnv.hostname = some "10.0.0.5\n".toList ∧
    hostnameEnv.endpoints "default".toList "nfs".toList
      = [{ Addresses := [{ IP := "10.0.0.5".toList }]
           Ports :=
             [ { Port := 111, Protocol := "UDP".toList }, { Port := 2049, Protocol := "TCP".toList },
               { Port := 111, Protocol := "TCP".toList },
               { Port := 20048, Protocol := "TCP".toList } ] }] ∧
    getServer { hostnameEnv with MY_POD_IP := "10.0.0.5".toList } = .ok "10.3.0.9".toList ∧
    getServer { hostnameEnv with MY_SERVICE_NAME := [] } = .ok "10.0.0.5\n".toList ∧
    getServer { serviceEnv with endpoints := fun _ _ => [{ sampleSubset with Ports := [] }] }
      = .error Err.serviceInvalid ∧
    getServer
        { serviceEnv with
          endpoints := fun _ _ =>
            [{ sampleSubset with
               Ports := { Port := 2049, Protocol := "UDP".toList } :: sampleSubset.Ports }] }
      = .error Err.serviceInvalid ∧
    getServer { serviceEnv with MY_POD_IP := [], hostname := none } = .error Err.hostnameFailed ∧
    getServer { serviceEnv with services := fun _ _ => some { ClusterIP := "None".toList } }
      = .error Err.noClusterIP ∧
    (∀ (e : Env) (service : Service), e.MY_SERVICE_NAME ≠ [] → e.MY_POD_NAMESPACE ≠ [] →
      e.services e.MY_POD_NAMESPACE e.MY_SERVICE_NAME = some service →
      (getServer e = .ok service.ClusterIP ↔
        (∃ pod, ((e.MY_POD_IP ≠ [] ∧ pod = e.MY_POD_IP) ∨
              (e.MY_POD_IP = [] ∧ e.hostname = some pod)) ∧
          ∃ subset ∈ e.endpoints e.MY_POD_NAMESPACE e.MY_SERVICE_NAME,
            (∃ address, subset.Addresses = [address] ∧ address.IP = pod) ∧
            ∀ (port : Int) (protocol : Str),
              (∃ ep ∈ subset.Ports, ep.Port = port ∧ ep.Protocol = protocol) ↔
                (port, protocol) ∈ [(2049, "TCP".toList), (20048, "TCP".toList),
                  (111, "TCP".toList), (111, "UDP".toList)]) ∧
        service.ClusterIP ≠ "None".toList) ∧
      (getServer e ≠ .ok service.ClusterIP → ∃ err, getServer e = .error err)) :=
  ⟨by rfl, by rfl, by rfl, by rfl, by rfl, by rfl, by rfl, by rfl, by rfl, by rfl,
    fun e service hname hns hsvc => getServer_with_service e service hname hns hsvc⟩

/-! ## Successful calls -/

theorem ganeshaExport_ok (p : nfsProvisioner) (w : World) (e : Env) (path block : Str) (id : Int)
    (h : (ganeshaExport p w e path).result = .ok (block, id)) :
    ∃ c, w.files p.ganeshaConfig = some c ∧ id = claimExportId p.nextExportId c ∧
      block = ganeshaBlock path id ∧
      (ganeshaExport p w e path).w.files p.ganeshaConfig = some (c ++ block) ∧
      (ganeshaExport p w e path).w.dirs = w.dirs := by
  cases hc : w.files p.ganeshaConfig with
  | none => simp [ganeshaExport, hc] at h
  | some c =>
    refine ⟨c, rfl, ?_⟩
    unfold ganeshaExport addToFile at h ⊢
    simp only [hc] at h ⊢
    cases ha : e.append <;> cases hd : e.dbusConn <;> cases hx : e.addExport <;>
      simp [ha, hd, hx] at h ⊢
    obtain ⟨h1, h2⟩ := h
    subst h2
    subst h1
    simp [World.write]

theorem kernelExport_ok (p : nfsProvisioner) (w : World) (e : Env) (path line : Str)
    (h : (kernelExport p w e path).result = .ok line) :
    ∃ c, w.files etcExports = some c ∧ line = exportsLine path ∧
      (kernelExport p w e path).w.files etcExports = some (c ++ line) ∧
      (kernelExport p w e path).w.dirs = w.dirs ∧ (kernelExport p w e path).p = p := by
  cases hc : w.files etcExports with
  | none => simp [kernelExport, addToFile, hc] at h
  | some c =>
    refine ⟨c, rfl, ?_⟩
    unfold kernelExport addToFile at h ⊢
    simp only [hc] at h ⊢
    cases ha : e.append <;> cases hx : e.exportfs <;> simp [ha, hx] at h ⊢
    subst h
    simp [World.write]

theorem kernelExport_p (p : nfsProvisioner) (w : World) (e : Env) (path : Str) :
    (kernelExport p w e path).p = p := by
  unfold kernelExport addToFile
  cases w.files etcExports <;> cases e.append <;> cases e.exportfs <;> rfl

/-- What a successful `createVolume` did: the server is the one `getServer` gives,
the path is the formatted one, the gid is the generated one, and the export is
the result of the variant's publish on the world with the directory created. -/
theorem createVolume_ok (p : nfsProvisioner) (w : World) (e : Env) (options : VolumeOptions)
    (server path added : Str) (gid exportId : Int)
    (h : (createVolume p w e options).result = .ok (server, path, gid, added, exportId)) :
    options.Parameters = none ∧ options.Selector = none ∧
    getServer e = .ok server ∧
    path = Sprintf e.fmtOther (p.exportDir ++ "%s".toList) options.PVName ∧
    w.stat path = false ∧
    generateSupplementalGroup p e = .ok gid ∧
    (p.useGanesha = true →
      (ganeshaExport p (w.mkdirAll path) e path).result = .ok (added, exportId) ∧
      (createVolume p w e options).w = (ganeshaExport p (w.mkdirAll path) e path).w ∧
      (createVolume p w e options).p = (ganeshaExport p (w.mkdirAll path) e path).p) ∧
    (p.useGanesha = false →
      (kernelExport p (w.mkdirAll path) e path).result = .ok added ∧ exportId = 0 ∧
      (createVolume p w e options).w = (kernelExport p (w.mkdirAll path) e path).w ∧
      (createVolume p w e options).p = p) := by
  unfold createVolume at h ⊢
  generalize Sprintf e.fmtOther (p.exportDir ++ "%s".toList) options.PVName = P at h ⊢
  cases hpar : options.Parameters with
  | some m => simp [hpar] at h
  | none =>
    cases hsel : options.Selector with
    | some s => simp [hpar, hsel] at h
    | none =>
      simp only [hpar, hsel, Option.isSome_none, Bool.false_eq_true, if_false] at h ⊢
      cases hsrv : getServer e with
      | error err => simp [hsrv] at h
      | ok srv =>
        simp only [hsrv] at h ⊢
        cases hst : w.stat P with
        | true => simp [hst] at h
        | false =>
          simp only [hst, Bool.false_eq_true, if_false] at h ⊢
          cases hmk : e.mkdirAll with
          | false => simp [hmk] at h
          | true =>
            simp only [hmk, Bool.true_eq_false, if_false] at h ⊢
            cases hch : e.chmod with
            | false => simp [hch] at h
            | true =>
              simp only [hch, Bool.true_eq_false, if_false] at h ⊢
              cases hg : generateSupplementalGroup p e with
              | error err => simp [hg] at h
              | ok g =>
                simp only [hg] at h ⊢
                cases hcg : e.chgrp with
                | false => simp [hcg] at h
                | true =>
                  simp only [hcg, Bool.true_eq_false, if_false] at h ⊢
                  cases hug : p.useGanesha with
                  | true =>
                    simp only [hug, if_true] at h ⊢
                    generalize hr : ganeshaExport p _ e _ = r at h ⊢
                    obtain ⟨res, p2, w2⟩ := r
                    cases res with
                    | error err => simp at h
                    | ok v =>
                      obtain ⟨b, i⟩ := v
                      simp at h
                      obtain ⟨h1, h2, h3, h4, h5⟩ := h
                      subst h1 h2 h3 h4 h5
                      simp [hr, hst]
                  | false =>
                    simp only [hug, Bool.false_eq_true, if_false] at h ⊢
                    generalize hr : kernelExport p _ e _ = r at h ⊢
                    obtain ⟨res, p2, w2⟩ := r
                    cases res with
                    | error err => simp at h
                    | ok v =>
                      simp at h
                      obtain ⟨h1, h2, h3, h4, h5⟩ := h
                      subst h1 h2 h3 h4 h5
                      have hp := congrArg Outcome.p hr
                      rw [kernelExport_p] at hp
                      simp only at hp
                      subst hp
                      simp [hr, hst]

theorem mapGet_nil (k : Str) : mapGet [] k = none := rfl

theorem mapGet_cons (k1 v : Str) (m : List (Str × Str)) (k : Str) :
    mapGet ((k1, v) :: m) k = if k1 = k then some v else mapGet m k := by
  unfold mapGet
  by_cases hk : k1 = k <;> simp [List.find?, hk]

theorem mapSet_fresh (m : List (Str × Str)) (k v : Str) (h : ∀ kv ∈ m, kv.1 ≠ k) :
    mapSet m k v = m ++ [(k, v)] := by
  unfold mapSet
  congr 1
  apply List.filter_eq_self.mpr
  intro kv hkv
  simpa using h kv hkv

/-- The annotations `Provision` builds in the daemon variant. -/
theorem ganeshaAnnotations_eq (gid added exportId : Str) :
    mapSet (mapSet (mapSet (mapSet [] annCreatedBy createdBy) VolumeGidAnnotationKey gid)
        annBlock added) annExportId exportId
      = [(annCreatedBy, createdBy), (VolumeGidAnnotationKey, gid), (annBlock, added),
          (annExportId, exportId)] := by
  rw [mapSet_fresh [] _ _ (by simp)]
  rw [mapSet_fresh _ VolumeGidAnnotationKey _ (by
    intro kv hkv; simp at hkv; subst hkv; dsimp only; decide)]
  rw [mapSet_fresh _ annBlock _ (by
    intro kv hkv; simp at hkv; rcases hkv with h | h <;> (subst h; dsimp only; decide))]
  rw [mapSet_fresh _ annExportId _ (by
    intro kv hkv; simp at hkv; rcases hkv with h | h | h <;> (subst h; dsimp only; decide))]
  rfl

/-- The annotations `Provision` builds in the kernel variant. -/
theorem kernelAnnotations_eq (gid added : Str) :
    mapSet (mapSet (mapSet [] annCreatedBy createdBy) VolumeGidAnnotationKey gid) annLine added
      = [(annCreatedBy, createdBy), (VolumeGidAnnotationKey, gid), (annLine, added)] := by
  rw [mapSet_fresh [] _ _ (by simp)]
  rw [mapSet_fresh _ VolumeGidAnnotationKey _ (by
    intro kv hkv; simp at hkv; subst hkv; dsimp only; decide)]
  rw [mapSet_fresh _ annLine _ (by
    intro kv hkv; simp at hkv; rcases hkv with h | h <;> (subst h; dsimp only; decide))]
  rfl

/-- What a successful `Provision` returns, in terms of the successful `createVolume`. -/
theorem Provision_ok (p : nfsProvisioner) (w : World) (e : Env) (options : VolumeOptions)
    (pv : PersistentVolume) (h : (Provision p w e options).result = .ok pv) :
    ∃ server path added gid exportId,
      (createVolume p w e options).result = .ok (server, path, gid, added, exportId) ∧
      (Provision p w e options).w = (createVolume p w e options).w ∧
      (Provision p w e options).p = (createVolume p w e options).p ∧
      pv.NFS = { Server := server, Path := path, ReadOnly := false } ∧
      pv.Name = options.PVName ∧
      pv.Annotations =
        if p.useGanesha then
          [(annCreatedBy, createdBy), (VolumeGidAnnotationKey, Itoa gid), (annBlock, added),
            (annExportId, Itoa exportId)]
        else [(annCreatedBy, createdBy), (VolumeGidAnnotationKey, Itoa gid), (annLine, added)] := by
  unfold Provision at h ⊢
  generalize hr : createVolume p w e options = r at h ⊢
  obtain ⟨res, p1, w1⟩ := r
  cases res with
  | error err => simp at h
  | ok v =>
    obtain ⟨server, path, gid, added, exportId⟩ := v
    refine ⟨server, path, added, gid, exportId, rfl, rfl, rfl, ?_⟩
    simp only [Except.ok.injEq] at h
    subst h
    simp only [true_and]
    cases p.useGanesha
    · simp only [Bool.false_eq_true, if_false]
      exact kernelAnnotations_eq _ _
    · simp only [if_true]
      exact ganeshaAnnotations_eq _ _ _

theorem sprintfAux_plain (other : Str → Option Str → Str) (dir name : Str)
    (h : '%' ∉ dir) : sprintfAux other (dir ++ "%s".toList) (some name) = dir ++ name := by
  induction dir with
  | nil =>
    show sprintfAux other ['%', 's'] (some name) = name
    simp [sprintfAux]
  | cons c cs ih =>
    have hc : c ≠ '%' := fun hc => h (by simp [hc])
    have hcs : '%' ∉ cs := fun hm => h (by simp [hm])
    rw [List.cons_append]
    cases hrest : cs ++ "%s".toList with
    | nil => simp at hrest
    | cons d ds =>
      have step : sprintfAux other (c :: d :: ds) (some name)
          = c :: sprintfAux other (d :: ds) (some name) := by
        conv_lhs => unfold sprintfAux
        split <;> first | rfl | simp_all
      rw [step, ← hrest, ih hcs]
      rfl

/-- C12 (the code at the failing input): the export directory is used as the
format of `fmt.Sprintf`. With the export directory `/mnt/100%/` and the volume
name `pvc-1`, `Provision` creates and reports the path
`/mnt/100%!/(string=pvc-1)%!s(MISSING)`, not `/mnt/100%/pvc-1`. For an export
directory without a percent sign the path is the directory followed by the name. -/
theorem provision_path_format :
    (okValue (Provision percentProvisioner sampleFiles sampleEnv sampleOptions).result).map
        (fun pv => pv.NFS.Path)
      = some "/mnt/100%!/(string=pvc-1)%!s(MISSING)".toList ∧
    (okValue (Provision percentProvisioner sampleFiles sampleEnv sampleOptions).result).map
        (fun pv => pv.NFS.Path)
      ≠ some (percentProvisioner.exportDir ++ sampleOptions.PVName) ∧
    (Provision percentProvisioner sampleFiles sampleEnv sampleOptions).w.dirs
        "/mnt/100%!/(string=pvc-1)%!s(MISSING)".toList = true ∧
    (Provision percentProvisioner sampleFiles sampleEnv sampleOptions).w.dirs
        (percentProvisioner.exportDir ++ sampleOptions.PVName) = false ∧
    (∀ (other : Str → Option Str → Str) (exportDir name : Str), '%' ∉ exportDir →
      Sprintf other (exportDir ++ "%s".toList) name = exportDir ++ name) :=
  ⟨by decide, by decide, by decide, by decide,
    fun other exportDir name h => sprintfAux_plain other exportDir name h⟩

/-- C11: for every successful `Provision` the annotations of the returned volume
are `kubernetes.io/createdby` = `nfs-dynamic-provisioner`, `pv.beta.kubernetes.io/gid`
= the decimal string of the gid generated for the directory, and the export
metadata of the variant only: in the daemon variant `EXPORT_block` is the block
appended to the configuration and `Export_Id` the decimal string of the id in
that block, with no `etcexports_line`; in the kernel variant `etcexports_line`
is the line appended to the exports file, with no `EXPORT_block` and no
`Export_Id`. -/
theorem provision_annotations (p : nfsProvisioner) (w : World) (e : Env)
    (options : VolumeOptions) (pv : PersistentVolume)
    (h : (Provision p w e options).result = .ok pv) :
    mapGet pv.Annotations "kubernetes.io/createdby".toList
      = some "nfs-dynamic-provisioner".toList ∧
    (∃ gid, generateSupplementalGroup p e = .ok gid ∧
      mapGet pv.Annotations "pv.beta.kubernetes.io/gid".toList = some (Itoa gid)) ∧
    (p.useGanesha = true →
      ∃ c block id, w.files p.ganeshaConfig = some c ∧
        (Provision p w e options).w.files p.ganeshaConfig = some (c ++ block) ∧
        block = ganeshaBlock pv.NFS.Path id ∧
        mapGet pv.Annotations "EXPORT_block".toList = some block ∧
        mapGet pv.Annotations "Export_Id".toList = some (Itoa id) ∧
        mapGet pv.Annotations "etcexports_line".toList = none ∧
        pv.Annotations.map Prod.fst
          = ["kubernetes.io/createdby".toList, "pv.beta.kubernetes.io/gid".toList,
              "EXPORT_block".toList, "Export_Id".toList]) ∧
    (p.useGanesha = false →
      ∃ c line, w.files etcExports = some c ∧
        (Provision p w e options).w.files etcExports = some (c ++ line) ∧
        line = exportsLine pv.NFS.Path ∧
        mapGet pv.Annotations "etcexports_line".toList = some line ∧
        mapGet pv.Annotations "EXPORT_block".toList = none ∧
        mapGet pv.Annotations "Export_Id".toList = none ∧
        pv.Annotations.map Prod.fst
          = ["kubernetes.io/createdby".toList, "pv.beta.kubernetes.io/gid".toList,
              "etcexports_line".toList]) := by
  obtain ⟨server, path, added, gid, exportId, hcv, hw, _, hnfs, _, hann⟩ :=
    Provision_ok p w e options pv h
  obtain ⟨_, _, _, _, _, hgid, hg, hk⟩ :=
    createVolume_ok p w e options server path added gid exportId hcv
  have hpath : pv.NFS.Path = path := by rw [hnfs]
  cases hug : p.useGanesha with
  | true =>
    rw [hug] at hann
    simp only [if_true] at hann
    obtain ⟨hge, hgw, _⟩ := hg hug
    obtain ⟨c, hc, _, hblock, hfile, _⟩ := ganeshaExport_ok p (w.mkdirAll path) e path added
      exportId hge
    rw [hann]
    refine ⟨?_, ⟨gid, hgid, ?_⟩, fun _ => ⟨c, added, exportId, hc, ?_, ?_, ?_, ?_, ?_, ?_⟩,
      fun hf => absurd hf (by simp)⟩
    · rw [mapGet_cons, if_pos (by decide)]
      rfl
    · repeat (first | rw [mapGet_cons, if_pos (by decide)] | rw [mapGet_cons, if_neg (by decide)])
    · rw [hw, hgw]; exact hfile
    · rw [hpath]; exact hblock
    · repeat (first | rw [mapGet_cons, if_pos (by decide)] | rw [mapGet_cons, if_neg (by decide)])
    · repeat (first | rw [mapGet_cons, if_pos (by decide)] | rw [mapGet_cons, if_neg (by decide)])
    · repeat (first | rw [mapGet_cons, if_pos (by decide)] | rw [mapGet_cons, if_neg (by decide)])
      rfl
    · rfl
  | false =>
    rw [hug] at hann
    simp only [Bool.false_eq_true, if_false] at hann
    obtain ⟨hke, _, hkw, _⟩ := hk hug
    obtain ⟨c, hc, hline, hfile, _⟩ := kernelExport_ok p (w.mkdirAll path) e path added hke
    rw [hann]
    refine ⟨?_, ⟨gid, hgid, ?_⟩, fun hf => absurd hf (by simp),
      fun _ => ⟨c, added, hc, ?_, ?_, ?_, ?_, ?_, ?_⟩⟩
    · rw [mapGet_cons, if_pos (by decide)]
      rfl
    · repeat (first | rw [mapGet_cons, if_pos (by decide)] | rw [mapGet_cons, if_neg (by decide)])
    · rw [hw, hkw]; exact hfile
    · rw [hpath]; exact hline
    · repeat (first | rw [mapGet_cons, if_pos (by decide)] | rw [mapGet_cons, if_neg (by decide)])
    · repeat (first | rw [mapGet_cons, if_pos (by decide)] | rw [mapGet_cons, if_neg (by decide)])
      rfl
    · repeat (first | rw [mapGet_cons, if_pos (by decide)] | rw [mapGet_cons, if_neg (by decide)])
      rfl
    · rfl

/-- C11 at the daemon variant, the configuration with the ids 7 and 12 and the
volume name `pvc-1`: the call succeeds, and the returned volume carries the
created-by and gid annotations and the block and id appended, with no
`etcexports_line`. -/
theorem provision_annotations_witness :
    (Provision sampleProvisioner sampleFiles sampleEnv sampleOptions).result = .ok sampleVolume ∧
    mapGet sampleVolume.Annotations "kubernetes.io/createdby".toList
      = some "nfs-dynamic-provisioner".toList ∧
    (∃ gid, generateSupplementalGroup sampleProvisioner sampleEnv = .ok gid ∧
      mapGet sampleVolume.Annotations "pv.beta.kubernetes.io/gid".toList = some (Itoa gid)) ∧
    ∃ c block id, sampleFiles.files sampleProvisioner.ganeshaConfig = some c ∧
      (Provision sampleProvisioner sampleFiles sampleEnv sampleOptions).w.files
          sampleProvisioner.ganeshaConfig = some (c ++ block) ∧
      block = ganeshaBlock sampleVolume.NFS.Path id ∧
      mapGet sampleVolume.Annotations "EXPORT_block".toList = some block ∧
      mapGet sampleVolume.Annotations "Export_Id".toList = some (Itoa id) ∧
      mapGet sampleVolume.Annotations "etcexports_line".toList = none ∧
      sampleVolume.Annotations.map Prod.fst
        = ["kubernetes.io/createdby".toList, "pv.beta.kubernetes.io/gid".toList,
            "EXPORT_block".toList, "Export_Id".toList] :=
  have h := provision_annotations sampleProvisioner sampleFiles sampleEnv sampleOptions
    sampleVolume (by rfl)
  ⟨by rfl, h.1, h.2.1, h.2.2.1 (by rfl)⟩

/-- C14: the block a successful `ganeshaExport` returns is the one EXPORT block
with `Export_Id = n`, `Path = p`, `Pseudo = p`, `Access_Type = RW`, `Squash =
Root_squash`, `SecType = sys` and the FSAL sub-block with `Name = VFS`, it is
what the call appended to the configuration, and the id returned is the `n`
written in the block, the id the call claimed. -/
theorem ganeshaExport_block (p : nfsProvisioner) (w : World) (e : Env) (path block : Str)
    (n : Int) (h : (ganeshaExport p w e path).result = .ok (block, n)) :
    block =
      "\nEXPORT\n\x7b\n\tExport_Id = ".toList ++ Itoa n ++ ";\n\tPath = ".toList ++ path ++
        ";\n\tPseudo = ".toList ++ path ++
        (";\n\tAccess_Type = RW;\n\tSquash = Root_squash;\n\tSecType = sys;\n" ++
          "\tFSAL \x7b\n\t\tName = VFS;\n\t\x7d\n\x7d\n").toList ∧
    claimedExportId (ganeshaExport p w e path) = some n ∧
    ∃ c, w.files p.ganeshaConfig = some c ∧
      (ganeshaExport p w e path).w.files p.ganeshaConfig = some (c ++ block) := by
  obtain ⟨c, hc, hid, hblock, hw, _⟩ := ganeshaExport_ok p w e path block n h
  refine ⟨?_, ?_, c, hc, hw⟩
  · rw [hblock]
    unfold ganeshaBlock
    simp only [List.append_assoc]
    rfl
  · rw [(ganeshaExport_claims p w e path c hc).1, hid]

/-- C14 at the configuration with the ids 7 and 12 and the path `/export/pvc-1`:
the call succeeds and returns the block with id 13. -/
theorem ganeshaExport_block_witness :
    ganeshaBlock "/export/pvc-1".toList 13 =
      ("\nEXPORT\n\x7b\n\tExport_Id = 13;\n\tPath = /export/pvc-1;\n\tPseudo = /export/pvc-1;\n" ++
        "\tAccess_Type = RW;\n\tSquash = Root_squash;\n\tSecType = sys;\n" ++
        "\tFSAL \x7b\n\t\tName = VFS;\n\t\x7d\n\x7d\n").toList ∧
    claimedExportId (ganeshaExport sampleProvisioner sampleFiles sampleEnv "/export/pvc-1".toList)
      = some 13 ∧
    ∃ c, sampleFiles.files sampleProvisioner.ganeshaConfig = some c ∧
      (ganeshaExport sampleProvisioner sampleFiles sampleEnv
          "/export/pvc-1".toList).w.files sampleProvisioner.ganeshaConfig
        = some (c ++ ganeshaBlock "/export/pvc-1".toList 13) :=
  have h := ganeshaExport_block sampleProvisioner sampleFiles sampleEnv "/export/pvc-1".toList
    (ganeshaBlock "/export/pvc-1".toList 13) 13 (by rfl)
  ⟨h.1.trans (by decide), h.2⟩

/-- C13 (amended): a successful `kernelExport` appends to the exports file
exactly a newline, then the text `<path> *(rw,insecure,root_squash)`, then one
newline, and returns that same text, the leading newline included, as the line. -/
theorem kernelExport_appends_line (p : nfsProvisioner) (w : World) (e : Env) (path line : Str)
    (h : (kernelExport p w e path).result = .ok line) :
    line = "\n".toList ++ path ++ " *(rw,insecure,root_squash)\n".toList ∧
    ∃ c, w.files etcExports = some c ∧
      (kernelExport p w e path).w.files etcExports = some (c ++ line) := by
  obtain ⟨c, hc, hline, hw, _⟩ := kernelExport_ok p w e path line h
  exact ⟨hline, c, hc, hw⟩

/-- C13 at an exports file with one other line and the path `/export/pvc-1`: the
publish succeeds, and the file ends with the returned line. -/
theorem kernelExport_appends_line_witness :
    (kernelExport kernelProvisioner sampleFiles sampleEnv "/export/pvc-1".toList).result
      = .ok "\n/export/pvc-1 *(rw,insecure,root_squash)\n".toList ∧
    ∃ c, sampleFiles.files etcExports = some c ∧
      (kernelExport kernelProvisioner sampleFiles sampleEnv "/export/pvc-1".toList).w.files
          etcExports
        = some (c ++ "\n/export/pvc-1 *(rw,insecure,root_squash)\n".toList) :=
  ⟨by rfl,
    (kernelExport_appends_line kernelProvisioner sampleFiles sampleEnv "/export/pvc-1".toList
      "\n/export/pvc-1 *(rw,insecure,root_squash)\n".toList (by rfl)).2⟩

/-- C13 as stated fails: for the path `/export/pvc-1` the text appended and
returned starts with a newline, so it is not `<path> *(rw,insecure,root_squash)`
followed by one newline. -/
theorem kernelExport_leading_newline :
    okValue (kernelExport kernelProvisioner sampleFiles sampleEnv "/export/pvc-1".toList).result
      = some "\n/export/pvc-1 *(rw,insecure,root_squash)\n".toList ∧
    okValue (kernelExport kernelProvisioner sampleFiles sampleEnv "/export/pvc-1".toList).result
      ≠ some ("/export/pvc-1".toList ++ " *(rw,insecure,root_squash)\n".toList) ∧
    (kernelExport kernelProvisioner sampleFiles sampleEnv "/export/pvc-1".toList).w.files
        etcExports
      ≠ some (sampleExports ++ ("/export/pvc-1".toList ++ " *(rw,insecure,root_squash)\n".toList)) := by
  decide

/-- C15 (the code at the failing input): with the downward API file
`kubernetes.io/psp="restricted"`, `getPodAnnotation` returns the whole line, not
the value `restricted`; with a second annotation on a line before it, or a
newline after it, it returns the empty string although the file has the line. -/
theorem getPodAnnotation_returns_line (other : Str → Str → Except Err Str) :
    getPodAnnotation (sampleWorld downwardAnnotations "kubernetes.io/psp=\"restricted\"".toList)
        other "kubernetes.io/psp".toList
      = .ok "kubernetes.io/psp=\"restricted\"".toList ∧
    "kubernetes.io/psp=\"restricted\"".toList ≠ "restricted".toList ∧
    getPodAnnotation
        (sampleWorld downwardAnnotations
          "kubernetes.io/config.source=\"api\"\nkubernetes.io/psp=\"restricted\"".toList)
        other "kubernetes.io/psp".toList
      = .ok [] ∧
    getPodAnnotation (sampleWorld downwardAnnotations "kubernetes.io/psp=\"restricted\"\n".toList)
        other "kubernetes.io/psp".toList
      = .ok [] :=
  ⟨by rfl, by decide, by rfl, by rfl⟩

theorem ganeshaExport_not_invalidParameter (p : nfsProvisioner) (w : World) (e : Env)
    (path : Str) : (ganeshaExport p w e path).result ≠ .error .invalidParameter := by
  unfold ganeshaExport addToFile
  cases hc : w.files p.ganeshaConfig <;> cases ha : e.append <;> cases hd : e.dbusConn <;>
    cases hx : e.addExport <;> simp [hc, ha, hd, hx]

theorem kernelExport_not_invalidParameter (p : nfsProvisioner) (w : World) (e : Env)
    (path : Str) : (kernelExport p w e path).result ≠ .error .invalidParameter := by
  unfold kernelExport addToFile
  cases hc : w.files etcExports <;> cases ha : e.append <;> cases hx : e.exportfs <;>
    simp [hc, ha, hx]

theorem createVolume_nil_parameters (p : nfsProvisioner) (w : World) (e : Env)
    (options : VolumeOptions) (hpar : options.Parameters = none) :
    (createVolume p w e options).result ≠ .error .invalidParameter := by
  unfold createVolume
  generalize Sprintf e.fmtOther (p.exportDir ++ "%s".toList) options.PVName = P
  simp only [hpar, Option.isSome_none, Bool.false_eq_true, if_false]
  cases options.Selector with
  | some s => simp
  | none =>
    simp only [Option.isSome_none, Bool.false_eq_true, if_false]
    cases getServer e with
    | error err => simp
    | ok srv =>
      simp only []
      cases w.stat P <;> cases e.mkdirAll <;> cases e.chmod <;> try simp
      cases generateSupplementalGroup p e with
      | error err => simp
      | ok g =>
        simp only []
        cases e.chgrp <;> cases p.useGanesha <;> try simp
        · have hk := kernelExport_not_invalidParameter p (w.mkdirAll P) e P
          generalize kernelExport p (w.mkdirAll P) e P = r at hk ⊢
          obtain ⟨res, p2, w2⟩ := r
          cases res with
          | error err => simpa using hk
          | ok v => simp
        · have hk := ganeshaExport_not_invalidParameter p (w.mkdirAll P) e P
          generalize ganeshaExport p (w.mkdirAll P) e P = r at hk ⊢
          obtain ⟨res, p2, w2⟩ := r
          cases res with
          | error err => simpa using hk
          | ok v => obtain ⟨b, i⟩ := v; simp

theorem Provision_result_error (p : nfsProvisioner) (w : World) (e : Env)
    (options : VolumeOptions) (err : Err) :
    (Provision p w e options).result = .error err ↔
      (createVolume p w e options).result = .error err := by
  unfold Provision
  generalize createVolume p w e options = r
  obtain ⟨res, p1, w1⟩ := r
  cases res with
  | error err2 => simp
  | ok v => obtain ⟨a, b, c, d, f⟩ := v; simp

/-- C17: `createVolume` rejects every options value whose parameters map is not
nil, the map with no entries included: `Provision` then returns the error `no
StorageClass parameters are supported` and leaves the state untouched, for an
empty map as for a non-empty one, and with a nil map it never returns that error. -/
theorem provision_rejects_non_nil_parameters (p : nfsProvisioner) (w : World) (e : Env)
    (options : VolumeOptions) :
    (∀ m, options.Parameters = some m →
      (Provision p w e options).result = .error .invalidParameter ∧
      (Provision p w e options).p = p ∧ (Provision p w e options).w = w) ∧
    (options.Parameters = none →
      (Provision p w e options).result ≠ .error .invalidParameter) ∧
    (Provision p w e { options with Parameters := some [], Selector := none }).result
      = .error .invalidParameter ∧
    (Provision p w e
        { options with Parameters := some [("type".toList, "fast".toList)], Selector := none }).result
      = .error .invalidParameter := by
  refine ⟨?_, ?_, ?_, ?_⟩
  · intro m hm
    simp [Provision, createVolume, hm]
  · intro hnil h
    exact createVolume_nil_parameters p w e options hnil ((Provision_result_error _ _ _ _ _).mp h)
  · simp [Provision, createVolume]
  · simp [Provision, createVolume]

/-- C16: `getSupplementalGroupsAnnotation` returns the value of the annotation
`openshift.io/sa.scc.supplemental-groups` when it is found, the value of
`openshift.io/sa.scc.uid-range` when the first is not found, and returns an
error exactly when neither is found or the value so chosen is empty. -/
theorem getSupplementalGroups_cases (ns : Namespace) :
    (∀ groups, mapGet ns.Annotations "openshift.io/sa.scc.supplemental-groups".toList = some groups →
      groups ≠ [] → getSupplementalGroupsAnnotation ns = .ok groups) ∧
    (∀ groups, mapGet ns.Annotations "openshift.io/sa.scc.supplemental-groups".toList = none →
      mapGet ns.Annotations "openshift.io/sa.scc.uid-range".toList = some groups →
      groups ≠ [] → getSupplementalGroupsAnnotation ns = .ok groups) ∧
    ((∃ err, getSupplementalGroupsAnnotation ns = .error err) ↔
      (mapGet ns.Annotations "openshift.io/sa.scc.supplemental-groups".toList = none ∧
        mapGet ns.Annotations "openshift.io/sa.scc.uid-range".toList = none) ∨
      mapGet ns.Annotations "openshift.io/sa.scc.supplemental-groups".toList = some [] ∨
      (mapGet ns.Annotations "openshift.io/sa.scc.supplemental-groups".toList = none ∧
        mapGet ns.Annotations "openshift.io/sa.scc.uid-range".toList = some [])) := by
  have h1 : "openshift.io/sa.scc.supplemental-groups".toList = SupplementalGroupsAnnotation := rfl
  have h2 : "openshift.io/sa.scc.uid-range".toList = UIDRangeAnnotation := rfl
  rw [h1, h2]
  unfold getSupplementalGroupsAnnotation
  cases hs : mapGet ns.Annotations SupplementalGroupsAnnotation with
  | some g =>
    cases g with
    | nil => simp
    | cons c cs => simp
  | none =>
    cases hu : mapGet ns.Annotations UIDRangeAnnotation with
    | none => simp
    | some g =>
      cases g with
      | nil => simp
      | cons c cs => simp

end NfsProvisioner
